import Mathlib

/-!
# Chaos Mesh plugin: lifecycle client

A shallow embedding of `internal/chaos/client.go` (status interpretation, the
watch loop, selector injection, creation and deletion) and of
`internal/plugin/plugin.go` (configuration, `Run`, `Terminate`, `GetMetadata`),
together with the library functions they call: the accessors of
`k8s.io/apimachinery/pkg/apis/meta/v1/unstructured`, `time.ParseDuration` and
`metricutil.MarkMeasurementError`.

Documents are trees of JSON values, as produced by decoding a resource into an
`unstructured.Unstructured`.  A Go `map[string]interface{}` is represented by an
association list; `mapGet` reads the first binding of a key and `mapSet`
overwrites that binding in place (or appends a new one), so that the two
together behave as Go's `m[k]` and `m[k] = v`.
-/

namespace ChaosMesh

/-! ## Documents -/

/-- A dynamically typed JSON value (`interface{}` inside an unstructured object). -/
inductive JVal where
  | null
  | bool (b : Bool)
  | int (n : Int)
  | float (bits : Nat)
  | str (s : String)
  | arr (items : List JVal)
  | obj (fields : List (String × JVal))

/-- A Go `map[string]interface{}`. -/
abbrev GoMap := List (String × JVal)

/-- Go `v, ok := m[k]`. -/
def mapGet : GoMap → String → Option JVal
  | [], _ => none
  | (k, v) :: rest, key => if k = key then some v else mapGet rest key

/-- Go `m[k] = v`. -/
def mapSet : GoMap → String → JVal → GoMap
  | [], key, v => [(key, v)]
  | (k, w) :: rest, key, v =>
    if k = key then (k, v) :: rest else (k, w) :: mapSet rest key v

/-- The three shapes of `(value, found, err)` an unstructured accessor returns:
`(v, true, nil)`, `(zero, false, nil)` and `(zero, false, err)`. -/
inductive Access (α : Type) where
  | value (v : α)
  | notFound
  | typeError

/-- The function `unstructured.NestedFieldNoCopy`, started at the value `val`. -/
def NestedFieldNoCopy : JVal → List String → Access JVal
  | val, [] => .value val
  | .null, _ :: _ => .notFound
  | .obj m, field :: fields =>
    match mapGet m field with
    | none => .notFound
    | some v => NestedFieldNoCopy v fields
  | _, _ :: _ => .typeError

/-- The function `unstructured.NestedMap` (the deep copy it returns is the same value). -/
def NestedMap (obj : GoMap) (fields : List String) : Access GoMap :=
  match NestedFieldNoCopy (.obj obj) fields with
  | .value (.obj m) => .value m
  | .value _ => .typeError
  | .notFound => .notFound
  | .typeError => .typeError

/-- The function `unstructured.NestedString`. -/
def NestedString (obj : GoMap) (fields : List String) : Access String :=
  match NestedFieldNoCopy (.obj obj) fields with
  | .value (.str s) => .value s
  | .value _ => .typeError
  | .notFound => .notFound
  | .typeError => .typeError

/-- The function `unstructured.NestedSlice`. -/
def NestedSlice (obj : GoMap) (fields : List String) : Access (List JVal) :=
  match NestedFieldNoCopy (.obj obj) fields with
  | .value (.arr xs) => .value xs
  | .value _ => .typeError
  | .notFound => .notFound
  | .typeError => .typeError

/-- The function `unstructured.SetNestedField`, setting `value` in `obj` at the
non-empty path `field :: fields`; `none` is its error return, on which the object
is not modified. -/
def SetNestedField (value : JVal) : GoMap → String → List String → Option GoMap
  | obj, field, [] => some (mapSet obj field value)
  | obj, field, next :: fields =>
    match mapGet obj field with
    | some (.obj sub) =>
      (SetNestedField value sub next fields).map (fun s => mapSet obj field (.obj s))
    | some _ => none
    | none =>
      (SetNestedField value [] next fields).map (fun s => mapSet obj field (.obj s))

/-- The function `unstructured.SetNestedMap`. -/
def SetNestedMap (obj : GoMap) (value : GoMap) (field : String) (fields : List String) :
    Option GoMap :=
  SetNestedField (.obj value) obj field fields

/-! ## Status interpretation -/

/-- The errors `checkExperimentStatus` wraps and returns. -/
inductive StatusError where
  | getStatus
  | getExperiment
  | getPhase
  | getConditions
  deriving DecidableEq, Repr

/-- The named results `(success, finished, err)` of `checkExperimentStatus`. -/
structure StatusResult where
  success : Bool
  finished : Bool
  err : Option StatusError
  deriving DecidableEq, Repr

/-- One iteration of the loop over `conditions` in `checkExperimentStatus`:
`true` when the iteration executes `return false, true, nil`, `false` when it
falls through (or `continue`s) to the next entry. -/
def conditionFails (conditionInterface : JVal) : Bool :=
  match conditionInterface with
  | .obj condition =>
    match NestedString condition ["type"] with
    | .value condType =>
      match NestedString condition ["status"] with
      | .value condStatus =>
        if condType = "AllInjected" ∧ condStatus ≠ "True" then true
        else if condType = "AllRecovered" ∧ condStatus ≠ "True" then true
        else false
      | _ => false
    | _ => false
  | _ => false

/-- The loop `for _, conditionInterface := range conditions` of
`checkExperimentStatus`, followed by the `return true, true, nil` after it. -/
def checkConditions : List JVal → StatusResult
  | [] => ⟨true, true, none⟩
  | c :: rest => if conditionFails c then ⟨false, true, none⟩ else checkConditions rest

/-- The method `Client.checkExperimentStatus`, on `obj.Object`. -/
def checkExperimentStatus (obj : GoMap) : StatusResult :=
  match NestedMap obj ["status"] with
  | .typeError => ⟨false, false, some .getStatus⟩
  | .notFound => ⟨false, false, none⟩
  | .value status =>
    match NestedMap status ["experiment"] with
    | .typeError => ⟨false, false, some .getExperiment⟩
    | .notFound => ⟨false, false, none⟩
    | .value experiment =>
      match NestedString experiment ["phase"] with
      | .typeError => ⟨false, false, some .getPhase⟩
      | .notFound => ⟨false, false, none⟩
      | .value phase =>
        if phase = "Running" then ⟨false, false, none⟩
        else if phase = "Finished" then
          match NestedSlice status ["conditions"] with
          | .typeError => ⟨false, true, some .getConditions⟩
          | .notFound => ⟨true, true, none⟩
          | .value conditions => checkConditions conditions
        else if phase = "Failed" ∨ phase = "Error" then ⟨false, true, none⟩
        else ⟨false, false, none⟩

/-! ## Resource coordinates -/

/-- The type `schema.GroupVersionResource`. -/
structure GroupVersionResource where
  Group : String
  Version : String
  Resource : String
  deriving DecidableEq, Repr

/-- The method `Client.getGVR`: the coordinates and the error (`none` is `nil`). -/
def getGVR (kind : String) : GroupVersionResource × Option String :=
  match kind with
  | "PodChaos" => (⟨"chaos-mesh.org", "v1alpha1", "podchaos"⟩, none)
  | "NetworkChaos" => (⟨"chaos-mesh.org", "v1alpha1", "networkchaos"⟩, none)
  | "StressChaos" => (⟨"chaos-mesh.org", "v1alpha1", "stresschaos"⟩, none)
  | "IOChaos" => (⟨"chaos-mesh.org", "v1alpha1", "iochaos"⟩, none)
  | "TimeChaos" => (⟨"chaos-mesh.org", "v1alpha1", "timechaos"⟩, none)
  | "KernelChaos" => (⟨"chaos-mesh.org", "v1alpha1", "kernelchaos"⟩, none)
  | "DNSChaos" => (⟨"chaos-mesh.org", "v1alpha1", "dnschaos"⟩, none)
  | "HTTPChaos" => (⟨"chaos-mesh.org", "v1alpha1", "httpchaos"⟩, none)
  | _ => (⟨"", "", ""⟩, some ("unsupported chaos kind: " ++ kind))

/-! ## Watching an experiment -/

/-- The type `watch.EventType`. -/
inductive EventType where
  | Added
  | Modified
  | Deleted
  | Bookmark
  | Error
  deriving DecidableEq, Repr

/-- The dynamic type of `event.Object` (a `runtime.Object`): an
`*unstructured.Unstructured` holding a document, or any other object, such as the
`*metav1.Status` an error event carries. -/
inductive RuntimeObject where
  | unstructured (obj : GoMap)
  | other (description : String)

/-- The type `watch.Event`. -/
structure Event where
  type : EventType
  object : RuntimeObject

/-- What the `select` of the watch loop observes once no further event is
received: the result channel is closed, or `watchCtx.Done()` fires. -/
inductive StreamEnd where
  | closed
  | deadline
  deriving DecidableEq, Repr

/-- One run of a watch as the loop's `select` sees it: the events received, in
order, and what follows the last of them. -/
structure WatchStream where
  events : List Event
  ending : StreamEnd

/-- The errors `WatchExperiment` returns. -/
inductive WatchError where
  | gvr (kind : String) (cause : String)
  | start (cause : String)
  | channelClosed
  | watchEvent (object : RuntimeObject)
  | timeout

/-- The loop `for { select { ... } }` of `WatchExperiment`. -/
def watchLoop : List Event → StreamEnd → Bool × Option WatchError
  | [], .closed => (false, some .channelClosed)
  | [], .deadline => (false, some .timeout)
  | event :: rest, ending =>
    if event.type = .Error then (false, some (.watchEvent event.object))
    else
      match event.object with
      | .other _ => watchLoop rest ending
      | .unstructured obj =>
        let r := checkExperimentStatus obj
        if r.err ≠ none then watchLoop rest ending
        else if r.finished then (r.success, none)
        else watchLoop rest ending

/-- The method `Client.WatchExperiment`.  `watch gvr ns name` is the call
`c.dynamicClient.Resource(gvr).Namespace(namespace).Watch(...)` with the field
selector on `name` (`ns` is the parameter `namespace`): it fails to start, or delivers a stream bounded by the
deadline `timeout` sets. -/
def WatchExperiment (watch : GroupVersionResource → String → String → Except String WatchStream)
    (ns name kind : String) : Bool × Option WatchError :=
  match getGVR kind with
  | (_, some err) => (false, some (.gvr kind err))
  | (gvr, none) =>
    match watch gvr ns name with
    | .error err => (false, some (.start err))
    | .ok watcher => watchLoop watcher.events watcher.ending

/-- The outcome an event ends the watch with, in the words of the specification:
the event carries an unstructured document that `checkExperimentStatus`
interprets, without error, as finished; the outcome is its `success`. -/
def terminalOutcome (e : Event) : Option Bool :=
  match e.object with
  | .other _ => none
  | .unstructured obj =>
    if (checkExperimentStatus obj).err = none ∧ (checkExperimentStatus obj).finished = true
    then some (checkExperimentStatus obj).success
    else none

/-- An update event whose object cannot be read as a structured status, in the
words of the specification: the event is a data event (not a stream-error event)
and its object is not an unstructured document, or `checkExperimentStatus`
returns an error on it. -/
def unreadableUpdate (e : Event) : Bool :=
  decide (e.type ≠ .Error) &&
    match e.object with
    | .other _ => true
    | .unstructured obj => decide ((checkExperimentStatus obj).err ≠ none)

/-! ## Selector injection -/

/-- The errors `injectSelector` returns. -/
inductive InjectError where
  | getSpec
  | specNotFound
  | getSelector
  | setSpec
  deriving DecidableEq, Repr

/-- The loop `for k, v := range targetSelector { labelSelectors[k] = v }`, from
the map `labelSelectors` built so far. -/
def copyLabels (labelSelectors : GoMap) : List (String × String) → GoMap
  | [] => labelSelectors
  | (k, v) :: rest => copyLabels (mapSet labelSelectors k (.str v)) rest

/-- The method `Client.injectSelector`: the object `obj.Object` after the call,
and the error returned (`none` is `nil`). -/
def injectSelector (obj : GoMap) (targetSelector : List (String × String)) :
    GoMap × Option InjectError :=
  match NestedMap obj ["spec"] with
  | .typeError => (obj, some .getSpec)
  | .notFound => (obj, some .specNotFound)
  | .value spec =>
    match NestedMap spec ["selector"] with
    | .typeError => (obj, some .getSelector)
    | found =>
      let selector : GoMap := match found with
        | .value selector => selector
        | _ => []
      let selector :=
        if targetSelector.length > 0 then
          mapSet selector "labelSelectors" (.obj (copyLabels [] targetSelector))
        else selector
      let spec := mapSet spec "selector" (.obj selector)
      match SetNestedMap obj spec "spec" [] with
      | none => (obj, some .setSpec)
      | some obj => (obj, none)

/-- The lowercased kind of the specification's coordinate table: the letters
`A`..`Z` mapped to `a`..`z`. -/
def lowercase (s : String) : String :=
  String.mk (s.data.map Char.toLower)

/-- An entry of `status.conditions` that the specification calls ignored: it is
not a record, or its `type` or its `status` field is missing or not a string. -/
def malformedCondition (c : JVal) : Bool :=
  match c with
  | .obj m =>
    match mapGet m "type", mapGet m "status" with
    | some (.str _), some (.str _) => false
    | _, _ => true
  | _ => true

/-! ## The plugin's surroundings -/

/-- The type `plugin.Config`. -/
structure Config where
  ChaosMeshEndpoint : String
  ChaosExperimentCRD : String
  TargetReplicaSetLabel : String
  TargetReplicaSetValue : String
  Timeout : String
  CleanupOnFinish : Bool
  deriving DecidableEq, Repr

/-- An error returned by a call on the cluster API: its text, and whether
`errors.IsNotFound` holds of it. -/
structure ApiError where
  message : String
  notFound : Bool
  deriving DecidableEq, Repr

/-- What the code under verification obtains from outside the repository in one
invocation: the decoders, the construction of the client, the answers of the
cluster API, the readings of the clock, and the texts that library code renders.
Durations are in nanoseconds and instants in ticks of the clock. -/
structure Host where
  /-- The call `json.Unmarshal(configData, config)`, from the raw message and the
  configuration holding the defaults. -/
  jsonUnmarshal : String → Config → Except String Config
  /-- The call `yaml.Unmarshal([]byte(experimentYAML), &obj)`. -/
  yamlUnmarshal : String → Except String GoMap
  /-- The error of `chaos.NewClient` (`none` is `nil`). -/
  newClient : Option String
  /-- The call `Resource(gvr).Namespace(namespace).Create(ctx, &obj, ...)`. -/
  create : GroupVersionResource → String → GoMap → Except String GoMap
  /-- The call `Resource(gvr).Namespace(namespace).Watch(watchCtx, ...)` under
  the deadline a timeout sets, with the field selector on a name. -/
  watch : Int → GroupVersionResource → String → String → Except String WatchStream
  /-- The call `Resource(gvr).Namespace(namespace).Delete(ctx, name, ...)`. -/
  delete : GroupVersionResource → String → String → Option ApiError
  /-- The readings of `timeutil.MetaNow()` at its first and at its second call. -/
  startTime : Nat
  finishTime : Nat
  /-- The rendering of `event.Object` by the verb `%v`. -/
  formatObject : RuntimeObject → String
  /-- The text of the error an unstructured accessor returns on a value of the
  wrong type, reading a path of a map. -/
  accessorError : GoMap → List String → String
  /-- The text of the error `time.ParseDuration` returns on a text. -/
  durationError : String → String
  /-- The value `uint64(float64(f) * (float64(unit) / scale))` that
  `time.ParseDuration` adds for the fraction `f / scale`, where `scale` is ten to
  the power of the third argument. -/
  floatProduct : Nat → Nat → Nat → Nat

/-- The function `getNestedString` of the package `unstructured`. -/
def getNestedString (obj : GoMap) (fields : List String) : String :=
  match NestedString obj fields with
  | .value val => val
  | _ => ""

/-- The method `Unstructured.GetKind`. -/
def GetKind (obj : GoMap) : String :=
  getNestedString obj ["kind"]

/-- The method `Unstructured.GetNamespace`. -/
def GetNamespace (obj : GoMap) : String :=
  getNestedString obj ["metadata", "namespace"]

/-- The method `Unstructured.GetName`. -/
def GetName (obj : GoMap) : String :=
  getNestedString obj ["metadata", "name"]

/-- The text `err.Error()` of an error `injectSelector` returns on `obj`. -/
def InjectError.Error (host : Host) (obj : GoMap) : InjectError → String
  | .getSpec => "failed to get spec: " ++ host.accessorError obj ["spec"]
  | .specNotFound => "spec not found in experiment"
  | .getSelector =>
    "failed to get selector: " ++
      host.accessorError
        (match NestedMap obj ["spec"] with
          | .value spec => spec
          | _ => [])
        ["selector"]
  | .setSpec =>
    "failed to set updated spec: " ++
      "value cannot be set because .spec is not a map[string]interface\x7b\x7d"

/-- The text `err.Error()` of an error `WatchExperiment` returns. -/
def WatchError.Error (host : Host) : WatchError → String
  | .gvr kind cause => "failed to get GVR for kind " ++ kind ++ ": " ++ cause
  | .start cause => "failed to start watching experiment: " ++ cause
  | .channelClosed => "watch channel closed unexpectedly"
  | .watchEvent object => "watch error: " ++ host.formatObject object
  | .timeout => "timeout waiting for experiment to complete"

/-! ## Creating and deleting an experiment -/

/-- The method `Client.CreateExperiment`; an error is given by its text. -/
def CreateExperiment (host : Host) (experimentYAML : String)
    (targetSelector : List (String × String)) : Except String GoMap :=
  match host.yamlUnmarshal experimentYAML with
  | .error err => .error ("failed to parse experiment YAML: " ++ err)
  | .ok obj =>
    match injectSelector obj targetSelector with
    | (_, some err) => .error ("failed to inject selector: " ++ err.Error host obj)
    | (obj, none) =>
      match getGVR (GetKind obj) with
      | (_, some err) =>
        .error ("failed to get GVR for kind " ++ GetKind obj ++ ": " ++ err)
      | (gvr, none) =>
        let ns := if GetNamespace obj = "" then "default" else GetNamespace obj
        match host.create gvr ns obj with
        | .error err => .error ("failed to create experiment: " ++ err)
        | .ok result => .ok result

/-- The method `Client.DeleteExperiment`: the text of the error returned (`none`
is `nil`).  `delete gvr ns name` is the call on the cluster API. -/
def DeleteExperiment (delete : GroupVersionResource → String → String → Option ApiError)
    (ns name kind : String) : Option String :=
  match getGVR kind with
  | (_, some err) => some ("failed to get GVR for kind " ++ kind ++ ": " ++ err)
  | (gvr, none) =>
    match delete gvr ns name with
    | none => none
    | some err =>
      if !err.notFound then some ("failed to delete experiment: " ++ err.message)
      else none

/-- A cluster API that stores the object it is asked to create under the
namespace of the request and answers with the stored object. -/
def storeCreate (_ : GroupVersionResource) (ns : String) (obj : GoMap) :
    Except String GoMap :=
  .ok ((SetNestedField (.str ns) obj "metadata" ["namespace"]).getD obj)

/-- A host for worked examples: the decoders succeed with `config` and `obj`, the
client is constructed, the cluster stores what it is asked to create, every
watch delivers `stream`, and a delete is answered by `deleted`. -/
def exampleHost (config : Config) (obj : GoMap) (stream : WatchStream)
    (deleted : Option ApiError) : Host where
  jsonUnmarshal := fun _ _ => .ok config
  yamlUnmarshal := fun _ => .ok obj
  newClient := none
  create := storeCreate
  watch := fun _ _ _ _ => .ok stream
  delete := fun _ _ _ => deleted
  startTime := 0
  finishTime := 1
  formatObject := fun _ => "object"
  accessorError := fun _ _ => "accessor error"
  durationError := fun _ => "time: invalid duration"
  floatProduct := fun f unit scale => f * unit / 10 ^ scale

/-! ## Durations -/

/-- The function `leadingInt` of the package `time`, started from the value `x`
read so far: the integer and the rest of the text, or `none` on overflow. -/
def leadingInt : Nat → List Char → Option (Nat × List Char)
  | x, [] => some (x, [])
  | x, c :: s =>
    if c < '0' ∨ c > '9' then some (x, c :: s)
    else if x > 2 ^ 63 / 10 then none
    else if x * 10 + (c.toNat - '0'.toNat) > 2 ^ 63 then none
    else leadingInt (x * 10 + (c.toNat - '0'.toNat)) s

/-- The function `leadingFraction` of the package `time`, started from the value
`x`, the number `digits` of digits accepted (`scale` is ten to that power) and the
flag `overflow`: the value, the number of digits accepted and the rest. -/
def leadingFraction : Nat → Nat → Bool → List Char → Nat × Nat × List Char
  | x, digits, _, [] => (x, digits, [])
  | x, digits, overflow, c :: s =>
    if c < '0' ∨ c > '9' then (x, digits, c :: s)
    else if overflow then leadingFraction x digits true s
    else if x > (2 ^ 63 - 1) / 10 then leadingFraction x digits true s
    else if x * 10 + (c.toNat - '0'.toNat) > 2 ^ 63 then leadingFraction x digits true s
    else leadingFraction (x * 10 + (c.toNat - '0'.toNat)) (digits + 1) false s

/-- The unit of a term of a duration: the characters up to the next `.` or
digit, and the rest of the text. -/
def leadingUnit : List Char → List Char × List Char
  | [] => ([], [])
  | c :: s =>
    if c = '.' ∨ ('0' ≤ c ∧ c ≤ '9') then ([], c :: s)
    else ((c :: (leadingUnit s).1), (leadingUnit s).2)

/-- The table `unitMap` of the package `time`, in nanoseconds. -/
def unitMap (u : String) : Option Nat :=
  if u = "ns" then some 1
  else if u = "us" then some 1000
  else if u = "µs" then some 1000
  else if u = "μs" then some 1000
  else if u = "ms" then some 1000000
  else if u = "s" then some 1000000000
  else if u = "m" then some 60000000000
  else if u = "h" then some 3600000000000
  else none

/-- The digits after the decimal point of a term of a duration, from the text
after the integer part: the value `f`, the number of digits of `scale`, whether a
digit was consumed (`post`), and the rest of the text. -/
def leadingPoint (s : List Char) : Nat × Nat × Bool × List Char :=
  match s with
  | '.' :: t =>
    ((leadingFraction 0 0 false t).1, (leadingFraction 0 0 false t).2.1,
      decide ((leadingFraction 0 0 false t).2.2.length ≠ t.length),
      (leadingFraction 0 0 false t).2.2)
  | _ => (0, 0, false, s)

/-- One iteration of the loop `for s != ""` of `time.ParseDuration`, up to the
addition to the sum: the value `v` of the term read (a `uint64`) and the rest of
the text, or `none` where the function returns an error. -/
def parseTerm (floatProduct : Nat → Nat → Nat → Nat) (s : List Char) :
    Option (Nat × List Char) :=
  match s with
  | [] => none
  | c :: _ =>
    if ¬ (c = '.' ∨ ('0' ≤ c ∧ c ≤ '9')) then none
    else
      match leadingInt 0 s with
      | none => none
      | some (v, s₁) =>
        if s₁.length = s.length ∧ (leadingPoint s₁).2.2.1 = false then none
        else if (leadingUnit (leadingPoint s₁).2.2.2).1 = [] then none
        else
          match unitMap (String.mk (leadingUnit (leadingPoint s₁).2.2.2).1) with
          | none => none
          | some unit =>
            if v > 2 ^ 63 / unit then none
            else if (leadingPoint s₁).1 > 0 then
              if (v * unit +
                  floatProduct (leadingPoint s₁).1 unit (leadingPoint s₁).2.1) % 2 ^ 64 >
                  2 ^ 63 then none
              else
                some ((v * unit +
                    floatProduct (leadingPoint s₁).1 unit (leadingPoint s₁).2.1) % 2 ^ 64,
                  (leadingUnit (leadingPoint s₁).2.2.2).2)
            else some (v * unit, (leadingUnit (leadingPoint s₁).2.2.2).2)

/-- The loop `for s != ""` of `time.ParseDuration`, from the sum `d` (a `uint64`)
of the terms read so far: the sum of all terms, or `none` where the function
returns an error.  Every iteration consumes a character, so that a `fuel` of the
length of the text is never used up. -/
def parseTerms (floatProduct : Nat → Nat → Nat → Nat) : Nat → Nat → List Char → Option Nat
  | _, d, [] => some d
  | 0, _, _ :: _ => none
  | fuel + 1, d, c :: s =>
    match parseTerm floatProduct (c :: s) with
    | none => none
    | some (v, rest) =>
      if (d + v) % 2 ^ 64 > 2 ^ 63 then none
      else parseTerms floatProduct fuel ((d + v) % 2 ^ 64) rest

/-- The function `time.ParseDuration`: the duration in nanoseconds, or `none`
where it returns an error. -/
def ParseDuration (floatProduct : Nat → Nat → Nat → Nat) (s : String) : Option Int :=
  let signed : Bool × List Char :=
    match s.data with
    | '-' :: t => (true, t)
    | '+' :: t => (false, t)
    | t => (false, t)
  if signed.2 = ['0'] then some 0
  else if signed.2 = [] then none
  else
    match parseTerms floatProduct signed.2.length 0 signed.2 with
    | none => none
    | some d =>
      if signed.1 then some (-(d : Int))
      else if d > 2 ^ 63 - 1 then none
      else some (d : Int)

/-! ## The plugin -/

/-- The constant `PluginName`. -/
def PluginName : String := "argo-rollouts-chaos-mesh-plugin"

/-- The constant `DefaultTimeout`, five minutes, in nanoseconds. -/
def DefaultTimeout : Int := 5 * 60000000000

/-- Go `v, ok := m[k]` on a `map[string]string` (also used for the map of raw
plugin configurations of a metric). -/
def strGet : List (String × String) → String → Option String
  | [], _ => none
  | (k, v) :: rest, key => if k = key then some v else strGet rest key

/-- Go `m[k] = v` on a `map[string]string`. -/
def strSet : List (String × String) → String → String → List (String × String)
  | [], key, v => [(key, v)]
  | (k, w) :: rest, key, v =>
    if k = key then (k, v) :: rest else (k, w) :: strSet rest key v

/-- The type `v1alpha1.Metric`, reduced to `metric.Provider.Plugin`. -/
structure Metric where
  Plugin : List (String × String)
  deriving DecidableEq, Repr

/-- The type `v1alpha1.AnalysisPhase`; `unset` is the empty phase. -/
inductive AnalysisPhase where
  | unset
  | Pending
  | Running
  | Successful
  | Failed
  | Error
  | Inconclusive
  deriving DecidableEq, Repr

/-- The type `v1alpha1.Measurement`. -/
structure Measurement where
  Phase : AnalysisPhase
  Message : String
  StartedAt : Option Nat
  FinishedAt : Option Nat
  Value : String
  Metadata : List (String × String)
  ResumeAt : Option Nat
  deriving DecidableEq, Repr

/-- The function `metricutil.MarkMeasurementError`; `now` is the reading of
`timeutil.MetaNow()` it takes when the measurement has no finishing time. -/
def MarkMeasurementError (now : Nat) (m : Measurement) (err : String) : Measurement :=
  { m with
    Phase := .Error
    Message := err
    FinishedAt := match m.FinishedAt with
      | none => some now
      | some t => some t }

/-- The calls a plugin method makes on the package `chaos`, in order; a delete
is recorded with the error it returned. -/
inductive ClientCall where
  | NewClient
  | CreateExperiment (experimentYAML : String) (targetSelector : List (String × String))
  | WatchExperiment (ns name kind : String) (timeout : Int)
  | DeleteExperiment (ns name kind : String) (err : Option String)
  deriving DecidableEq, Repr

/-- The method `RpcPlugin.parseConfig`; an error is given by its text. -/
def parseConfig (host : Host) (metric : Metric) : Except String Config :=
  match strGet metric.Plugin PluginName with
  | none =>
    .error ("plugin configuration not found under key \x27" ++ PluginName ++ "\x27")
  | some configData =>
    match host.jsonUnmarshal configData ⟨"", "", "", "", "5m0s", true⟩ with
    | .error err => .error ("failed to unmarshal plugin configuration: " ++ err)
    | .ok config => .ok config

/-- The method `RpcPlugin.validateConfig`: the text of the error returned (`none`
is `nil`). -/
def validateConfig (host : Host) (config : Config) : Option String :=
  if config.ChaosExperimentCRD = "" then some "chaosExperimentCRD is required"
  else if config.TargetReplicaSetLabel = "" then some "targetReplicaSetLabel is required"
  else if config.TargetReplicaSetValue = "" then some "targetReplicaSetValue is required"
  else if config.Timeout ≠ "" then
    match ParseDuration host.floatProduct config.Timeout with
    | none => some ("invalid timeout format: " ++ host.durationError config.Timeout)
    | some _ => none
  else none

/-- The block `// Parse timeout` of `RpcPlugin.Run`: the timeout the watch is
given. -/
def parseTimeout (host : Host) (config : Config) : Int :=
  if config.Timeout ≠ "" then
    match ParseDuration host.floatProduct config.Timeout with
    | some parsedTimeout => parsedTimeout
    | none => DefaultTimeout
  else DefaultTimeout

/-- The method `RpcPlugin.Run`: the measurement returned, and the calls made on
the package `chaos`. -/
def Run (host : Host) (metric : Metric) : Measurement × List ClientCall :=
  let newMeasurement : Measurement :=
    ⟨.unset, "", some host.startTime, none, "", [], none⟩
  match parseConfig host metric with
  | .error err => (MarkMeasurementError host.finishTime newMeasurement err, [])
  | .ok config =>
    match validateConfig host config with
    | some err => (MarkMeasurementError host.finishTime newMeasurement err, [])
    | none =>
      match host.newClient with
      | some err => (MarkMeasurementError host.finishTime newMeasurement err, [.NewClient])
      | none =>
        let targetSelector := [(config.TargetReplicaSetLabel, config.TargetReplicaSetValue)]
        match CreateExperiment host config.ChaosExperimentCRD targetSelector with
        | .error err =>
          (MarkMeasurementError host.finishTime newMeasurement err,
            [.NewClient, .CreateExperiment config.ChaosExperimentCRD targetSelector])
        | .ok experiment =>
          let experimentName := GetName experiment
          let experimentNamespace := GetNamespace experiment
          let experimentKind := GetKind experiment
          let timeout := parseTimeout host config
          let cleanup : List ClientCall :=
            if config.CleanupOnFinish then
              [.DeleteExperiment experimentNamespace experimentName experimentKind
                (DeleteExperiment host.delete experimentNamespace experimentName
                  experimentKind)]
            else []
          let calls : List ClientCall :=
            [.NewClient, .CreateExperiment config.ChaosExperimentCRD targetSelector,
              .WatchExperiment experimentNamespace experimentName experimentKind timeout] ++
              cleanup
          match WatchExperiment (host.watch timeout) experimentNamespace experimentName
              experimentKind with
          | (_, some err) =>
            (MarkMeasurementError host.finishTime newMeasurement (err.Error host), calls)
          | (success, none) =>
            let metadata : List (String × String) :=
              [("experimentName", experimentName),
                ("experimentNamespace", experimentNamespace),
                ("experimentKind", experimentKind),
                ("targetSelector",
                  config.TargetReplicaSetLabel ++ "=" ++ config.TargetReplicaSetValue)]
            if success then
              ({ newMeasurement with
                  FinishedAt := some host.finishTime
                  Metadata := metadata
                  Phase := .Successful
                  Value := "1" }, calls)
            else
              ({ newMeasurement with
                  FinishedAt := some host.finishTime
                  Metadata := metadata
                  Phase := .Failed
                  Value := "0" }, calls)

/-- The method `RpcPlugin.Terminate`: the measurement returned, and the calls
made on the package `chaos`. -/
def Terminate (host : Host) (metric : Metric) (measurement : Measurement) :
    Measurement × List ClientCall :=
  match parseConfig host metric with
  | .error _ => (measurement, [])
  | .ok _ =>
    match strGet measurement.Metadata "experimentName" with
    | some experimentName =>
      let experimentNamespace := (strGet measurement.Metadata "experimentNamespace").getD ""
      let experimentKind := (strGet measurement.Metadata "experimentKind").getD ""
      match host.newClient with
      | some _ => (measurement, [.NewClient])
      | none =>
        (measurement,
          [.NewClient,
            .DeleteExperiment experimentNamespace experimentName experimentKind
              (DeleteExperiment host.delete experimentNamespace experimentName
                experimentKind)])
    | none => (measurement, [])

/-! ## Metadata of a metric -/

/-- The function `strings.HasPrefix`, on the characters of the two texts. -/
def hasPrefixChars : List Char → List Char → Bool
  | _, [] => true
  | [], _ :: _ => false
  | c :: s, p :: rest => decide (c = p) && hasPrefixChars s rest

/-- The function `strings.Contains`, on the characters of the two texts. -/
def containsChars : List Char → List Char → Bool
  | [], substr => hasPrefixChars [] substr
  | c :: s, substr => hasPrefixChars (c :: s) substr || containsChars s substr

/-- The function `strings.Contains`. -/
def Contains (s substr : String) : Bool :=
  containsChars s.data substr.data

/-- The function `strings.Split` for a separator of one character, on the
characters of the text: the pieces between the occurrences of the separator. -/
def splitChars (sep : Char) : List Char → List (List Char)
  | [] => [[]]
  | c :: s =>
    if c = sep then [] :: splitChars sep s
    else
      match splitChars sep s with
      | piece :: pieces => (c :: piece) :: pieces
      | [] => [[c]]

/-- The function `strings.Split` for a separator of one character. -/
def Split (s : String) (sep : Char) : List String :=
  (splitChars sep s.data).map String.mk

/-- The function `unicode.IsSpace`. -/
def isSpace (c : Char) : Bool :=
  c = '\t' || c = '\n' || c.toNat = 0x0B || c.toNat = 0x0C || c = '\r' || c = ' ' ||
    c.toNat = 0x85 || c.toNat = 0xA0 || c.toNat = 0x1680 ||
    (0x2000 ≤ c.toNat && c.toNat ≤ 0x200A) || c.toNat = 0x2028 || c.toNat = 0x2029 ||
    c.toNat = 0x202F || c.toNat = 0x205F || c.toNat = 0x3000

/-- The function `strings.TrimSpace`. -/
def TrimSpace (s : String) : String :=
  String.mk (((s.data.dropWhile isSpace).reverse.dropWhile isSpace).reverse)

/-- The loop `for _, line := range lines` of `GetMetadata`, on the map
`metadata` built so far. -/
def extractKind (metadata : List (String × String)) : List String → List (String × String)
  | [] => metadata
  | line :: lines =>
    if Contains line "kind:" then
      match Split line ':' with
      | _ :: part :: _ => strSet metadata "experimentKind" (TrimSpace part)
      | _ => extractKind metadata lines
    else extractKind metadata lines

/-- The method `RpcPlugin.GetMetadata`. -/
def GetMetadata (host : Host) (metric : Metric) : List (String × String) :=
  match parseConfig host metric with
  | .error _ => []
  | .ok config =>
    let metadata : List (String × String) := strSet [] "pluginName" PluginName
    let metadata := strSet metadata "targetReplicaSetLabel" config.TargetReplicaSetLabel
    let metadata := strSet metadata "targetReplicaSetValue" config.TargetReplicaSetValue
    let metadata := strSet metadata "timeout" config.Timeout
    let metadata :=
      strSet metadata "cleanupOnFinish" (if config.CleanupOnFinish then "true" else "false")
    if Contains config.ChaosExperimentCRD "kind:" then
      extractKind metadata (Split config.ChaosExperimentCRD '\n')
    else metadata

/-! ## Accessors on single keys -/

theorem NestedMap_single (m : GoMap) (k : String) :
    NestedMap m [k] = match mapGet m k with
      | none => .notFound
      | some (.obj x) => .value x
      | some _ => .typeError := by
  unfold NestedMap
  simp only [NestedFieldNoCopy]
  cases h : mapGet m k with
  | none => rfl
  | some v => cases v <;> rfl

theorem NestedString_single (m : GoMap) (k : String) :
    NestedString m [k] = match mapGet m k with
      | none => .notFound
      | some (.str x) => .value x
      | some _ => .typeError := by
  unfold NestedString
  simp only [NestedFieldNoCopy]
  cases h : mapGet m k with
  | none => rfl
  | some v => cases v <;> rfl

theorem NestedSlice_single (m : GoMap) (k : String) :
    NestedSlice m [k] = match mapGet m k with
      | none => .notFound
      | some (.arr x) => .value x
      | some _ => .typeError := by
  unfold NestedSlice
  simp only [NestedFieldNoCopy]
  cases h : mapGet m k with
  | none => rfl
  | some v => cases v <;> rfl

theorem NestedMap_single_value {m : GoMap} {k : String} {x : GoMap} :
    NestedMap m [k] = .value x ↔ mapGet m k = some (.obj x) := by
  rw [NestedMap_single]
  cases h : mapGet m k with
  | none => simp
  | some v => cases v <;> simp

theorem NestedString_single_value {m : GoMap} {k : String} {s : String} :
    NestedString m [k] = .value s ↔ mapGet m k = some (.str s) := by
  rw [NestedString_single]
  cases h : mapGet m k with
  | none => simp
  | some v => cases v <;> simp

theorem NestedSlice_single_value {m : GoMap} {k : String} {xs : List JVal} :
    NestedSlice m [k] = .value xs ↔ mapGet m k = some (.arr xs) := by
  rw [NestedSlice_single]
  cases h : mapGet m k with
  | none => simp
  | some v => cases v <;> simp

theorem NestedMap_single_notFound {m : GoMap} {k : String} :
    NestedMap m [k] = .notFound ↔ mapGet m k = none := by
  rw [NestedMap_single]
  cases h : mapGet m k with
  | none => simp
  | some v => cases v <;> simp

theorem NestedSlice_single_notFound {m : GoMap} {k : String} :
    NestedSlice m [k] = .notFound ↔ mapGet m k = none := by
  rw [NestedSlice_single]
  cases h : mapGet m k with
  | none => simp
  | some v => cases v <;> simp

/-! ## The phase of a document -/

/-- Reading `status.experiment.phase` as a string in one call succeeds exactly
when the three single-key reads of `checkExperimentStatus` succeed in turn. -/
theorem phase_readable_iff (obj : GoMap) (phase : String) :
    NestedString obj ["status", "experiment", "phase"] = .value phase ↔
      ∃ status experiment, mapGet obj "status" = some (.obj status) ∧
        mapGet status "experiment" = some (.obj experiment) ∧
        mapGet experiment "phase" = some (.str phase) := by
  unfold NestedString
  simp only [NestedFieldNoCopy]
  cases h1 : mapGet obj "status" with
  | none => simp
  | some v1 =>
    cases v1 <;> simp [NestedFieldNoCopy]
    rename_i status
    cases h2 : mapGet status "experiment" with
    | none => simp
    | some v2 =>
      cases v2 <;> simp [NestedFieldNoCopy]
      rename_i experiment
      cases h3 : mapGet experiment "phase" with
      | none => simp
      | some v3 => cases v3 <;> simp

/-- The switch on `phase` that `checkExperimentStatus` reaches once the three
reads have succeeded. -/
theorem checkExperimentStatus_of_phase {obj status experiment : GoMap} {phase : String}
    (h1 : mapGet obj "status" = some (.obj status))
    (h2 : mapGet status "experiment" = some (.obj experiment))
    (h3 : mapGet experiment "phase" = some (.str phase)) :
    checkExperimentStatus obj =
      if phase = "Running" then ⟨false, false, none⟩
      else if phase = "Finished" then
        match NestedSlice status ["conditions"] with
        | .typeError => ⟨false, true, some .getConditions⟩
        | .notFound => ⟨true, true, none⟩
        | .value conditions => checkConditions conditions
      else if phase = "Failed" ∨ phase = "Error" then ⟨false, true, none⟩
      else ⟨false, false, none⟩ := by
  simp only [checkExperimentStatus, NestedMap_single, NestedString_single, h1, h2, h3]

theorem checkConditions_finished (conditions : List JVal) :
    (checkConditions conditions).finished = true ∧ (checkConditions conditions).err = none := by
  induction conditions with
  | nil => simp [checkConditions]
  | cons c rest ih =>
    unfold checkConditions
    split <;> simp [ih]

theorem checkConditions_success (conditions : List JVal) :
    (checkConditions conditions).success = true ↔ ∀ c ∈ conditions, conditionFails c = false := by
  induction conditions with
  | nil => simp [checkConditions]
  | cons c rest ih =>
    unfold checkConditions
    split
    · simp_all
    · simp_all

theorem conditionFails_iff (c : JVal) :
    conditionFails c = true ↔
      ∃ m t s, c = .obj m ∧ mapGet m "type" = some (.str t) ∧
        mapGet m "status" = some (.str s) ∧
        (t = "AllInjected" ∨ t = "AllRecovered") ∧ s ≠ "True" := by
  constructor
  · intro h
    cases c with
    | obj m =>
      simp only [conditionFails, NestedString_single] at h
      cases ht : mapGet m "type" with
      | none => simp [ht] at h
      | some vt =>
        cases vt with
        | str t =>
          cases hs : mapGet m "status" with
          | none => simp [ht, hs] at h
          | some vs =>
            cases vs with
            | str s =>
              refine ⟨m, t, s, rfl, ht, hs, ?_⟩
              simp only [ht, hs] at h
              by_cases h1 : t = "AllInjected" <;> by_cases h2 : t = "AllRecovered" <;>
                by_cases h3 : s = "True" <;> simp_all
            | _ => simp [ht, hs] at h
        | _ => simp [ht] at h
    | _ => simp [conditionFails] at h
  · rintro ⟨m, t, s, rfl, ht, hs, ho, hn⟩
    simp only [conditionFails, NestedString_single, ht, hs]
    rcases ho with ho | ho <;> simp [ho, hn]

/-- Whenever `success` is returned `true`, the three reads succeeded and the
phase read is "Finished". -/
theorem success_phase (obj : GoMap) (h : (checkExperimentStatus obj).success = true) :
    ∃ status experiment, mapGet obj "status" = some (.obj status) ∧
      mapGet status "experiment" = some (.obj experiment) ∧
      mapGet experiment "phase" = some (.str "Finished") := by
  cases h1 : mapGet obj "status" with
  | none => simp [checkExperimentStatus, NestedMap_single, h1] at h
  | some v1 =>
    cases v1 with
    | obj status =>
      cases h2 : mapGet status "experiment" with
      | none => simp [checkExperimentStatus, NestedMap_single, h1, h2] at h
      | some v2 =>
        cases v2 with
        | obj experiment =>
          cases h3 : mapGet experiment "phase" with
          | none =>
            simp [checkExperimentStatus, NestedMap_single, NestedString_single, h1, h2, h3] at h
          | some v3 =>
            cases v3 with
            | str phase =>
              rw [checkExperimentStatus_of_phase h1 h2 h3] at h
              by_cases hp : phase = "Finished"
              · exact ⟨status, experiment, rfl, h2, by rw [h3, hp]⟩
              · exfalso
                by_cases hr : phase = "Running" <;>
                  by_cases hx : phase = "Failed" ∨ phase = "Error" <;>
                  simp [hr, hp, hx] at h
            | _ =>
              simp [checkExperimentStatus, NestedMap_single, NestedString_single,
                h1, h2, h3] at h
        | _ => simp [checkExperimentStatus, NestedMap_single, h1, h2] at h
    | _ => simp [checkExperimentStatus, NestedMap_single, h1] at h

/-! ## Claims on `checkExperimentStatus` -/

/-- C1: when `status.experiment.phase` is readable as a string, `finished` is
`true` exactly for the phases "Finished", "Failed" and "Error" (for "Finished"
whatever `status.conditions` holds), and every other phase string gives
`(false, false, nil)`; so does a document with no status, no
`status.experiment`, or no phase. -/
theorem checkExperimentStatus_finished_iff_terminal_phase (obj : GoMap) :
    (∀ phase, NestedString obj ["status", "experiment", "phase"] = .value phase →
      ((checkExperimentStatus obj).finished = true ↔
        phase = "Finished" ∨ phase = "Failed" ∨ phase = "Error") ∧
      (phase ≠ "Finished" → phase ≠ "Failed" → phase ≠ "Error" →
        checkExperimentStatus obj = ⟨false, false, none⟩)) ∧
    (mapGet obj "status" = none → checkExperimentStatus obj = ⟨false, false, none⟩) ∧
    (∀ status, mapGet obj "status" = some (.obj status) →
      mapGet status "experiment" = none →
      checkExperimentStatus obj = ⟨false, false, none⟩) ∧
    (∀ status experiment, mapGet obj "status" = some (.obj status) →
      mapGet status "experiment" = some (.obj experiment) →
      mapGet experiment "phase" = none →
      checkExperimentStatus obj = ⟨false, false, none⟩) := by
  refine ⟨?_, ?_, ?_, ?_⟩
  · intro phase hphase
    obtain ⟨status, experiment, h1, h2, h3⟩ := (phase_readable_iff obj phase).1 hphase
    rw [checkExperimentStatus_of_phase h1 h2 h3]
    by_cases hr : phase = "Running"
    · subst hr
      simp
    · by_cases hf : phase = "Finished"
      · subst hf
        simp only [hr, if_false, if_true]
        refine ⟨?_, fun h => absurd rfl h⟩
        cases hc : NestedSlice status ["conditions"] with
        | value conditions => simp [(checkConditions_finished conditions).1]
        | notFound => simp
        | typeError => simp
      · by_cases hx : phase = "Failed" ∨ phase = "Error"
        · simp only [hr, hf, hx, if_false, if_true]
          rcases hx with hx | hx <;> simp [hx]
        · simp only [hr, hf, hx, if_false]
          push_neg at hx
          simp [hf, hx.1, hx.2]
  · intro h
    simp [checkExperimentStatus, NestedMap_single, h]
  · intro status h1 h2
    simp [checkExperimentStatus, NestedMap_single, h1, h2]
  · intro status experiment h1 h2 h3
    simp [checkExperimentStatus, NestedMap_single, NestedString_single, h1, h2, h3]

/-- C1 at a document whose phase is "Finished" and whose `status.conditions` is
not even a sequence: `finished` is `true`. -/
theorem checkExperimentStatus_finished_iff_terminal_phase_witness :
    NestedString
        [("status", .obj [("experiment", .obj [("phase", .str "Finished")]),
          ("conditions", .str "none")])]
        ["status", "experiment", "phase"] = .value "Finished" ∧
      (checkExperimentStatus
        [("status", .obj [("experiment", .obj [("phase", .str "Finished")]),
          ("conditions", .str "none")])]).finished = true :=
  ⟨rfl, (((checkExperimentStatus_finished_iff_terminal_phase
    [("status", .obj [("experiment", .obj [("phase", .str "Finished")]),
      ("conditions", .str "none")])]).1 "Finished" rfl).1).2 (Or.inl rfl)⟩

/-- C2: for a document with phase "Finished", absent `status.conditions` give
`(true, true, nil)`; and when `status.conditions` is a sequence of records that
each carry a string `type` and a string `status`, `success` is `true` exactly
when no record has type "AllInjected" or "AllRecovered" together with a status
other than "True" (and `finished` is `true` with no error either way). -/
theorem finished_success_iff_no_failed_condition (obj status : GoMap)
    (hphase : NestedString obj ["status", "experiment", "phase"] = .value "Finished")
    (hstatus : mapGet obj "status" = some (.obj status)) :
    (mapGet status "conditions" = none → checkExperimentStatus obj = ⟨true, true, none⟩) ∧
    (∀ conditions, mapGet status "conditions" = some (.arr conditions) →
      (∀ c ∈ conditions, ∃ m t s, c = .obj m ∧ mapGet m "type" = some (.str t) ∧
        mapGet m "status" = some (.str s)) →
      ((checkExperimentStatus obj).success = true ↔
        ¬ ∃ c ∈ conditions, ∃ m t s, c = .obj m ∧ mapGet m "type" = some (.str t) ∧
          mapGet m "status" = some (.str s) ∧
          (t = "AllInjected" ∨ t = "AllRecovered") ∧ s ≠ "True") ∧
      (checkExperimentStatus obj).finished = true ∧
      (checkExperimentStatus obj).err = none) := by
  obtain ⟨status', experiment, h1, h2, h3⟩ := (phase_readable_iff obj "Finished").1 hphase
  rw [hstatus] at h1
  cases h1
  have hr : ¬ ("Finished" = "Running") := by decide
  rw [checkExperimentStatus_of_phase hstatus h2 h3]
  simp only [hr, if_false, if_true]
  constructor
  · intro hc
    rw [NestedSlice_single_notFound.2 hc]
  · intro conditions hc _
    rw [NestedSlice_single_value.2 hc]
    refine ⟨?_, checkConditions_finished conditions⟩
    rw [checkConditions_success]
    constructor
    · rintro h ⟨c, hmem, hfail⟩
      have h1 := h c hmem
      have h2 := (conditionFails_iff c).2 hfail
      rw [h1] at h2
      cases h2
    · intro h c hmem
      by_contra hne
      have hne' : conditionFails c = true := by
        cases hcf : conditionFails c with
        | true => rfl
        | false => exact absurd hcf hne
      exact h ⟨c, hmem, (conditionFails_iff c).1 hne'⟩

/-- C2 at the document of the spec's example: phase "Finished" with the single
condition `{type: AllInjected, status: False}` does not succeed. -/
theorem finished_success_iff_no_failed_condition_witness :
    ¬ (checkExperimentStatus
        [("status", .obj [("experiment", .obj [("phase", .str "Finished")]),
          ("conditions", .arr [.obj [("type", .str "AllInjected"),
            ("status", .str "False")]])])]).success = true :=
  fun hs =>
    ((((finished_success_iff_no_failed_condition
      [("status", .obj [("experiment", .obj [("phase", .str "Finished")]),
        ("conditions", .arr [.obj [("type", .str "AllInjected"),
          ("status", .str "False")]])])]
      [("experiment", .obj [("phase", .str "Finished")]),
        ("conditions", .arr [.obj [("type", .str "AllInjected"),
          ("status", .str "False")]])]
      rfl rfl).2
      [.obj [("type", .str "AllInjected"), ("status", .str "False")]] rfl
      (by
        intro c hc
        rw [List.mem_singleton] at hc
        exact ⟨[("type", .str "AllInjected"), ("status", .str "False")],
          "AllInjected", "False", hc, rfl, rfl⟩)).1).1 hs)
      ⟨_, List.mem_singleton.2 rfl,
        [("type", .str "AllInjected"), ("status", .str "False")],
        "AllInjected", "False", rfl, rfl, rfl, Or.inl rfl, by decide⟩

/-- C3: `success = true` is returned only together with `finished = true` and
no error, and only for a document whose phase is "Finished"; every other
readable phase, and a missing status, give `success = false`. -/
theorem success_implies_finished_and_phase_finished (obj : GoMap) :
    ((checkExperimentStatus obj).success = true →
      (checkExperimentStatus obj).finished = true ∧
      (checkExperimentStatus obj).err = none ∧
      NestedString obj ["status", "experiment", "phase"] = .value "Finished") ∧
    (∀ phase, NestedString obj ["status", "experiment", "phase"] = .value phase →
      phase ≠ "Finished" → (checkExperimentStatus obj).success = false) ∧
    (mapGet obj "status" = none → (checkExperimentStatus obj).success = false) := by
  have key : (checkExperimentStatus obj).success = true →
      (checkExperimentStatus obj).finished = true ∧
      (checkExperimentStatus obj).err = none ∧
      NestedString obj ["status", "experiment", "phase"] = .value "Finished" := by
    intro h
    obtain ⟨status, experiment, h1, h2, h3⟩ := success_phase obj h
    refine ⟨?_, ?_, (phase_readable_iff obj "Finished").2 ⟨status, experiment, h1, h2, h3⟩⟩
    · have hr : ¬ ("Finished" = "Running") := by decide
      rw [checkExperimentStatus_of_phase h1 h2 h3] at h ⊢
      simp only [hr, if_false, if_true] at h ⊢
      cases hc : NestedSlice status ["conditions"] with
      | value conditions => simp [(checkConditions_finished conditions).1]
      | notFound => simp
      | typeError => simp
    · have hr : ¬ ("Finished" = "Running") := by decide
      rw [checkExperimentStatus_of_phase h1 h2 h3] at h ⊢
      simp only [hr, if_false, if_true] at h ⊢
      cases hc : NestedSlice status ["conditions"] with
      | value conditions => simp [(checkConditions_finished conditions).2]
      | notFound => simp
      | typeError => simp [hc] at h
  refine ⟨key, ?_, ?_⟩
  · intro phase hphase hne
    cases hs : (checkExperimentStatus obj).success with
    | false => rfl
    | true =>
      have h := (key hs).2.2
      rw [hphase] at h
      cases h
      exact absurd rfl hne
  · intro h
    simp [checkExperimentStatus, NestedMap_single, h]

/-- C3 at the spec's example of a "Failed" experiment: `success` is `false`. -/
theorem success_implies_finished_and_phase_finished_witness :
    (checkExperimentStatus
      [("status", .obj [("experiment", .obj [("phase", .str "Failed")])])]).success = false :=
  (success_implies_finished_and_phase_finished
    [("status", .obj [("experiment", .obj [("phase", .str "Failed")])])]).2.1
    "Failed" rfl (by decide)

/-! ## The watch loop -/

theorem WatchExperiment_started
    (watch : GroupVersionResource → String → String → Except String WatchStream)
    (ns name kind : String) (events : List Event) (ending : StreamEnd)
    (hkind : (getGVR kind).2 = none)
    (hwatch : watch (getGVR kind).1 ns name = .ok ⟨events, ending⟩) :
    WatchExperiment watch ns name kind = watchLoop events ending := by
  unfold WatchExperiment
  generalize getGVR kind = p at hkind hwatch
  obtain ⟨gvr, err⟩ := p
  simp only at hkind hwatch
  subst hkind
  simp only [hwatch]

theorem watchLoop_cons_error (e : Event) (rest : List Event) (ending : StreamEnd)
    (h : e.type = .Error) :
    watchLoop (e :: rest) ending = (false, some (.watchEvent e.object)) := by
  simp [watchLoop, h]

theorem watchLoop_cons_skip (e : Event) (rest : List Event) (ending : StreamEnd)
    (h : e.type ≠ .Error) (ht : terminalOutcome e = none) :
    watchLoop (e :: rest) ending = watchLoop rest ending := by
  obtain ⟨ty, object⟩ := e
  cases object with
  | other d => simp_all [watchLoop]
  | unstructured obj =>
    simp only [terminalOutcome] at ht
    simp only [watchLoop]
    simp only at h
    simp only [h, if_false]
    by_cases he : (checkExperimentStatus obj).err = none
    · by_cases hf : (checkExperimentStatus obj).finished = true
      · simp [he, hf] at ht
      · simp [he, hf]
    · simp [he]

theorem watchLoop_cons_terminal (e : Event) (rest : List Event) (ending : StreamEnd)
    (s : Bool) (h : e.type ≠ .Error) (ht : terminalOutcome e = some s) :
    watchLoop (e :: rest) ending = (s, none) := by
  obtain ⟨ty, object⟩ := e
  cases object with
  | other d => simp [terminalOutcome] at ht
  | unstructured obj =>
    simp only [terminalOutcome] at ht
    simp only [watchLoop]
    simp only at h
    simp only [h, if_false]
    by_cases he : (checkExperimentStatus obj).err = none
    · by_cases hf : (checkExperimentStatus obj).finished = true
      · simp [he, hf] at ht
        simp [he, hf, ht]
      · simp [he, hf] at ht
    · simp [he] at ht

theorem unreadableUpdate_skip (e : Event) (h : unreadableUpdate e = true) :
    e.type ≠ .Error ∧ terminalOutcome e = none := by
  obtain ⟨ty, object⟩ := e
  cases object with
  | other d => simpa [unreadableUpdate, terminalOutcome] using h
  | unstructured obj =>
    simp only [unreadableUpdate, Bool.and_eq_true, decide_eq_true_eq] at h
    refine ⟨h.1, ?_⟩
    simp [terminalOutcome, h.2]

theorem watchLoop_cons_congr (e : Event) (l₁ l₂ : List Event) (ending : StreamEnd)
    (h : watchLoop l₁ ending = watchLoop l₂ ending) :
    watchLoop (e :: l₁) ending = watchLoop (e :: l₂) ending := by
  obtain ⟨ty, object⟩ := e
  cases object with
  | other d => simp [watchLoop, h]
  | unstructured obj => simp [watchLoop, h]

theorem watchLoop_skip_leading (pre rest : List Event) (ending : StreamEnd)
    (hpre : ∀ e ∈ pre, e.type ≠ .Error ∧ terminalOutcome e = none) :
    watchLoop (pre ++ rest) ending = watchLoop rest ending := by
  induction pre with
  | nil => rfl
  | cons e pre ih =>
    have he := hpre e (List.mem_cons_self e pre)
    rw [List.cons_append, watchLoop_cons_skip e _ ending he.1 he.2]
    exact ih (fun e' h' => hpre e' (List.mem_cons_of_mem e h'))

theorem watchLoop_remove (pre post : List Event) (e : Event) (ending : StreamEnd)
    (h : unreadableUpdate e = true) :
    watchLoop (pre ++ post) ending = watchLoop (pre ++ e :: post) ending := by
  induction pre with
  | nil =>
    have he := unreadableUpdate_skip e h
    simp only [List.nil_append]
    rw [watchLoop_cons_skip e post ending he.1 he.2]
  | cons a pre ih => exact watchLoop_cons_congr a _ _ ending ih

theorem watchLoop_filter (events : List Event) (ending : StreamEnd) :
    watchLoop (events.filter (fun e => !unreadableUpdate e)) ending =
      watchLoop events ending := by
  induction events with
  | nil => rfl
  | cons e rest ih =>
    cases h : unreadableUpdate e with
    | true =>
      have he := unreadableUpdate_skip e h
      rw [List.filter_cons_of_neg (by simp [h]), watchLoop_cons_skip e rest ending he.1 he.2]
      exact ih
    | false =>
      rw [List.filter_cons_of_pos (by simp [h])]
      exact watchLoop_cons_congr e _ _ ending ih

theorem watchLoop_never_both (events : List Event) (ending : StreamEnd) :
    (watchLoop events ending).2 ≠ none → (watchLoop events ending).1 = false := by
  induction events with
  | nil => cases ending <;> simp [watchLoop]
  | cons e rest ih =>
    by_cases hty : e.type = .Error
    · simp [watchLoop_cons_error e rest ending hty]
    · cases ht : terminalOutcome e with
      | none => rw [watchLoop_cons_skip e rest ending hty ht]; exact ih
      | some s => simp [watchLoop_cons_terminal e rest ending s hty ht]

theorem watchLoop_outcome_observed (events : List Event) (ending : StreamEnd) :
    (watchLoop events ending).2 = none →
      ∃ e ∈ events, e.type ≠ .Error ∧
        terminalOutcome e = some (watchLoop events ending).1 := by
  induction events with
  | nil => cases ending <;> simp [watchLoop]
  | cons e rest ih =>
    by_cases hty : e.type = .Error
    · simp [watchLoop_cons_error e rest ending hty]
    · cases ht : terminalOutcome e with
      | none =>
        rw [watchLoop_cons_skip e rest ending hty ht]
        intro h
        obtain ⟨e', hmem, h'⟩ := ih h
        exact ⟨e', List.mem_cons_of_mem e hmem, h'⟩
      | some s =>
        rw [watchLoop_cons_terminal e rest ending s hty ht]
        intro _
        exact ⟨e, List.mem_cons_self e rest, hty, ht⟩

theorem watchLoop_no_terminal (events : List Event) (ending : StreamEnd)
    (h : ∀ e ∈ events, terminalOutcome e = none) :
    (watchLoop events ending).1 = false ∧ (watchLoop events ending).2 ≠ none := by
  induction events with
  | nil => cases ending <;> simp [watchLoop]
  | cons e rest ih =>
    by_cases hty : e.type = .Error
    · simp [watchLoop_cons_error e rest ending hty]
    · rw [watchLoop_cons_skip e rest ending hty (h e (List.mem_cons_self e rest))]
      exact ih (fun e' h' => h e' (List.mem_cons_of_mem e h'))

theorem WatchExperiment_never_both
    (watch : GroupVersionResource → String → String → Except String WatchStream)
    (ns name kind : String) :
    (WatchExperiment watch ns name kind).2 ≠ none →
      (WatchExperiment watch ns name kind).1 = false := by
  unfold WatchExperiment
  generalize getGVR kind = p
  obtain ⟨gvr, err⟩ := p
  cases err with
  | some err => simp
  | none =>
    simp only
    cases watch gvr ns name with
    | error err => simp
    | ok watcher => exact watchLoop_never_both watcher.events watcher.ending

/-! ## Claims on `WatchExperiment` -/

/-- C4, as stated, fails on two streams.  In the first a watch-error event
precedes the first event whose status interprets to `finished = true` (with
`success = true`): the watch returns the watch error, not that event's outcome.
In the second the first event whose status interprets to `finished = true` is a
"Finished" document whose `status.conditions` is not a sequence, so that
`checkExperimentStatus` also returns an error: the watch skips it and returns the
outcome of the event after it. -/
theorem watch_first_finished_counterexample :
    checkExperimentStatus
        [("status", .obj [("experiment", .obj [("phase", .str "Finished")])])] =
      ⟨true, true, none⟩ ∧
    WatchExperiment
        (fun _ _ _ => .ok ⟨[⟨.Error, .other "Status"⟩,
          ⟨.Modified, .unstructured
            [("status", .obj [("experiment", .obj [("phase", .str "Finished")])])]⟩],
          .closed⟩)
        "default" "pod-kill" "PodChaos" =
      (false, some (.watchEvent (.other "Status"))) ∧
    checkExperimentStatus
        [("status", .obj [("experiment", .obj [("phase", .str "Finished")]),
          ("conditions", .str "none")])] =
      ⟨false, true, some .getConditions⟩ ∧
    WatchExperiment
        (fun _ _ _ => .ok ⟨[⟨.Modified, .unstructured
            [("status", .obj [("experiment", .obj [("phase", .str "Finished")]),
              ("conditions", .str "none")])]⟩,
          ⟨.Modified, .unstructured
            [("status", .obj [("experiment", .obj [("phase", .str "Finished")])])]⟩],
          .closed⟩)
        "default" "pod-kill" "PodChaos" =
      (true, none) :=
  ⟨rfl, rfl, rfl, rfl⟩

/-- C4, amended: once the watch has started, it ends at the first event that is
not a watch-error event and whose document `checkExperimentStatus` interprets
without error as finished, provided no watch-error event precedes it, and it
returns that event's `success` with no error; neither the events after it nor
the way the stream ends influence the result. -/
theorem watch_returns_first_terminal_outcome
    (watch : GroupVersionResource → String → String → Except String WatchStream)
    (ns name kind : String) (pre post : List Event) (e : Event) (ending : StreamEnd)
    (s : Bool)
    (hkind : (getGVR kind).2 = none)
    (hwatch : watch (getGVR kind).1 ns name = .ok ⟨pre ++ e :: post, ending⟩)
    (hpre : ∀ e' ∈ pre, e'.type ≠ .Error ∧ terminalOutcome e' = none)
    (htype : e.type ≠ .Error) (hterminal : terminalOutcome e = some s) :
    WatchExperiment watch ns name kind = (s, none) := by
  rw [WatchExperiment_started watch ns name kind _ ending hkind hwatch,
    watchLoop_skip_leading pre _ ending hpre,
    watchLoop_cons_terminal e post ending s htype hterminal]

/-- C4, amended, on a stream that delivers a "Running" update, then a "Failed"
one, then a "Finished" one: the result is the outcome of the "Failed" update. -/
theorem watch_returns_first_terminal_outcome_witness :
    WatchExperiment
        (fun _ _ _ => .ok ⟨[⟨.Added, .unstructured
            [("status", .obj [("experiment", .obj [("phase", .str "Running")])])]⟩] ++
          ⟨.Modified, .unstructured
            [("status", .obj [("experiment", .obj [("phase", .str "Failed")])])]⟩ ::
          [⟨.Modified, .unstructured
            [("status", .obj [("experiment", .obj [("phase", .str "Finished")])])]⟩],
          .deadline⟩)
        "default" "pod-kill" "PodChaos" =
      (false, none) :=
  watch_returns_first_terminal_outcome _ "default" "pod-kill" "PodChaos"
    [⟨.Added, .unstructured
      [("status", .obj [("experiment", .obj [("phase", .str "Running")])])]⟩]
    [⟨.Modified, .unstructured
      [("status", .obj [("experiment", .obj [("phase", .str "Finished")])])]⟩]
    ⟨.Modified, .unstructured
      [("status", .obj [("experiment", .obj [("phase", .str "Failed")])])]⟩
    .deadline false rfl rfl
    (by
      intro e' he'
      rw [List.mem_singleton] at he'
      subst he'
      exact ⟨by decide, rfl⟩)
    (by decide) rfl

/-- C5, as stated, fails when the stream delivers a watch-error event and then
closes: no event has interpreted to a terminal state, yet the error returned is
the watch error, not the channel-closed error. -/
theorem watch_closed_error_counterexample :
    terminalOutcome ⟨.Error, .other "Status"⟩ = none ∧
    WatchExperiment (fun _ _ _ => .ok ⟨[⟨.Error, .other "Status"⟩], .closed⟩)
        "default" "pod-kill" "PodChaos" =
      (false, some (.watchEvent (.other "Status"))) ∧
    WatchExperiment (fun _ _ _ => .ok ⟨[⟨.Error, .other "Status"⟩], .closed⟩)
        "default" "pod-kill" "PodChaos" ≠
      (false, some .channelClosed) :=
  ⟨rfl, rfl, fun h => by
    have h2 : WatchError.watchEvent (.other "Status") = .channelClosed :=
      Option.some.inj (congrArg Prod.snd h)
    cases h2⟩

/-- C5, amended: `WatchExperiment` never returns an error together with
`success = true`.  Once the watch has started: if no event interprets to a
terminal state, the result is an error with `success = false`; that error is
the channel-closed error when the stream closes and the timeout error when the
deadline elapses, provided no watch-error event was delivered, and it is the
watch error of the first watch-error event otherwise; and a result without error
is the outcome of an event of the stream that interprets to a terminal state. -/
theorem watch_without_terminal_event
    (watch : GroupVersionResource → String → String → Except String WatchStream)
    (ns name kind : String) :
    ((WatchExperiment watch ns name kind).2 ≠ none →
      (WatchExperiment watch ns name kind).1 = false) ∧
    (∀ events ending, (getGVR kind).2 = none →
      watch (getGVR kind).1 ns name = .ok ⟨events, ending⟩ →
      ((∀ e ∈ events, terminalOutcome e = none) →
        (WatchExperiment watch ns name kind).1 = false ∧
        (WatchExperiment watch ns name kind).2 ≠ none ∧
        ((∀ e ∈ events, e.type ≠ .Error) →
          WatchExperiment watch ns name kind =
            (false, some (match ending with
              | .closed => .channelClosed
              | .deadline => .timeout))) ∧
        (∀ pre e post, events = pre ++ e :: post → (∀ e' ∈ pre, e'.type ≠ .Error) →
          e.type = .Error →
          WatchExperiment watch ns name kind = (false, some (.watchEvent e.object)))) ∧
      ((WatchExperiment watch ns name kind).2 = none →
        ∃ e ∈ events, e.type ≠ .Error ∧
          terminalOutcome e = some (WatchExperiment watch ns name kind).1)) := by
  refine ⟨WatchExperiment_never_both watch ns name kind, ?_⟩
  intro events ending hkind hwatch
  rw [WatchExperiment_started watch ns name kind events ending hkind hwatch]
  refine ⟨fun hnone => ⟨(watchLoop_no_terminal events ending hnone).1,
    (watchLoop_no_terminal events ending hnone).2, ?_, ?_⟩,
    watchLoop_outcome_observed events ending⟩
  · intro hdata
    have h := watchLoop_skip_leading events [] ending (fun e he => ⟨hdata e he, hnone e he⟩)
    rw [List.append_nil] at h
    rw [h]
    cases ending <;> rfl
  · intro pre e post hev hpre hty
    subst hev
    rw [watchLoop_skip_leading pre _ ending
      (fun e' he' => ⟨hpre e' he', hnone e' (List.mem_append_left _ he')⟩)]
    exact watchLoop_cons_error e post ending hty

/-- C5, amended, on a stream that delivers one "Running" update before the
deadline elapses: the result is the timeout error. -/
theorem watch_without_terminal_event_witness :
    WatchExperiment
        (fun _ _ _ => .ok ⟨[⟨.Modified, .unstructured
          [("status", .obj [("experiment", .obj [("phase", .str "Running")])])]⟩],
          .deadline⟩)
        "default" "pod-kill" "PodChaos" =
      (false, some .timeout) :=
  (((watch_without_terminal_event _ "default" "pod-kill" "PodChaos").2
    [⟨.Modified, .unstructured
      [("status", .obj [("experiment", .obj [("phase", .str "Running")])])]⟩]
    .deadline rfl rfl).1
    (by
      intro e he
      rw [List.mem_singleton] at he
      subst he
      rfl)).2.2.1
    (by
      intro e he
      rw [List.mem_singleton] at he
      subst he
      decide)

/-- C6: an update event (a data event, not a stream-error event) whose object is
not an unstructured document, or on whose document `checkExperimentStatus`
returns an error, never ends the watch: removing one such event from the stream,
or all of them, leaves the result of `WatchExperiment` unchanged. -/
theorem watch_skips_unreadable_updates (ns name kind : String) (ending : StreamEnd) :
    (∀ pre post e, unreadableUpdate e = true →
      WatchExperiment (fun _ _ _ => .ok ⟨pre ++ post, ending⟩) ns name kind =
        WatchExperiment (fun _ _ _ => .ok ⟨pre ++ e :: post, ending⟩) ns name kind) ∧
    (∀ events,
      WatchExperiment
          (fun _ _ _ => .ok ⟨events.filter (fun e => !unreadableUpdate e), ending⟩)
          ns name kind =
        WatchExperiment (fun _ _ _ => .ok ⟨events, ending⟩) ns name kind) := by
  constructor
  · intro pre post e he
    unfold WatchExperiment
    generalize getGVR kind = p
    obtain ⟨gvr, err⟩ := p
    cases err with
    | some err => rfl
    | none => exact watchLoop_remove pre post e ending he
  · intro events
    unfold WatchExperiment
    generalize getGVR kind = p
    obtain ⟨gvr, err⟩ := p
    cases err with
    | some err => rfl
    | none => exact watchLoop_filter events ending

/-- C6 on a stream whose first update carries a document with `status: null`
(on which `checkExperimentStatus` returns an error) and whose second update is a
successful "Finished" one: the result is that of the stream without the first. -/
theorem watch_skips_unreadable_updates_witness :
    unreadableUpdate ⟨.Modified, .unstructured [("status", .null)]⟩ = true ∧
    WatchExperiment
        (fun _ _ _ => .ok ⟨[] ++ ⟨.Modified, .unstructured [("status", .null)]⟩ ::
          [⟨.Modified, .unstructured
            [("status", .obj [("experiment", .obj [("phase", .str "Finished")])])]⟩],
          .closed⟩)
        "default" "pod-kill" "PodChaos" =
      (true, none) :=
  ⟨rfl, ((watch_skips_unreadable_updates "default" "pod-kill" "PodChaos" .closed).1 []
    [⟨.Modified, .unstructured
      [("status", .obj [("experiment", .obj [("phase", .str "Finished")])])]⟩]
    ⟨.Modified, .unstructured [("status", .null)]⟩ rfl).symm.trans rfl⟩

/-! ## Maps -/

theorem mapGet_mapSet_same (m : GoMap) (k : String) (v : JVal) :
    mapGet (mapSet m k v) k = some v := by
  induction m with
  | nil => simp [mapSet, mapGet]
  | cons kv rest ih =>
    obtain ⟨k', w⟩ := kv
    by_cases h : k' = k
    · simp [mapSet, mapGet, h]
    · simp [mapSet, mapGet, h, ih]

theorem mapGet_mapSet_other (m : GoMap) (k k' : String) (v : JVal) (hne : k' ≠ k) :
    mapGet (mapSet m k v) k' = mapGet m k' := by
  induction m with
  | nil => simp [mapSet, mapGet, Ne.symm hne]
  | cons kv rest ih =>
    obtain ⟨k₀, w⟩ := kv
    by_cases h : k₀ = k
    · subst h
      simp [mapSet, mapGet, Ne.symm hne]
    · by_cases h' : k₀ = k'
      · subst h'
        simp [mapSet, mapGet, h]
      · simp [mapSet, mapGet, h, h', ih]

theorem mapSet_mapSet_same (m : GoMap) (k : String) (v v' : JVal) :
    mapSet (mapSet m k v) k v' = mapSet m k v' := by
  induction m with
  | nil => simp [mapSet]
  | cons kv rest ih =>
    obtain ⟨k₀, w⟩ := kv
    by_cases h : k₀ = k
    · simp [mapSet, h]
    · simp [mapSet, h, ih]

theorem mapGet_eq_none_of_not_mem (m : GoMap) (k : String)
    (h : k ∉ m.map Prod.fst) : mapGet m k = none := by
  induction m with
  | nil => rfl
  | cons kv rest ih =>
    obtain ⟨k₀, w⟩ := kv
    simp only [List.map_cons, List.mem_cons, not_or] at h
    simp [mapGet, Ne.symm h.1, ih h.2]

theorem mapSet_append_of_not_mem (m : GoMap) (k : String) (v : JVal)
    (h : k ∉ m.map Prod.fst) : mapSet m k v = m ++ [(k, v)] := by
  induction m with
  | nil => rfl
  | cons kv rest ih =>
    obtain ⟨k₀, w⟩ := kv
    simp only [List.map_cons, List.mem_cons, not_or] at h
    simp [mapSet, Ne.symm h.1, ih h.2]

/-- Copying a target selector (a Go map, whose keys are distinct) into a map that
holds none of its keys appends its entries. -/
theorem copyLabels_append (target : List (String × String)) (acc : GoMap)
    (hnodup : (target.map Prod.fst).Nodup)
    (hdisj : ∀ k ∈ target.map Prod.fst, k ∉ acc.map Prod.fst) :
    copyLabels acc target = acc ++ target.map (fun kv => (kv.1, JVal.str kv.2)) := by
  induction target generalizing acc with
  | nil => simp [copyLabels]
  | cons kv rest ih =>
    obtain ⟨k, v⟩ := kv
    simp only [List.map_cons, List.nodup_cons] at hnodup
    have hk : k ∉ acc.map Prod.fst := hdisj k (by simp)
    simp only [copyLabels]
    rw [mapSet_append_of_not_mem acc k (.str v) hk, ih _ hnodup.2]
    · simp
    · intro k' hk'
      have h1 : k' ∉ acc.map Prod.fst := hdisj k' (by simp [hk'])
      have h2 : k' ≠ k := fun h => hnodup.1 (h ▸ hk')
      simp only [List.map_append, List.map_cons, List.map_nil, List.mem_append,
        List.mem_singleton, not_or]
      exact ⟨h1, h2⟩

theorem mapGet_labels (target : List (String × String))
    (hnodup : (target.map Prod.fst).Nodup) (k v : String) (h : (k, v) ∈ target) :
    mapGet (target.map (fun kv => (kv.1, JVal.str kv.2))) k = some (.str v) := by
  induction target with
  | nil => cases h
  | cons kv rest ih =>
    obtain ⟨k₀, v₀⟩ := kv
    simp only [List.map_cons, List.nodup_cons] at hnodup
    rcases List.mem_cons.1 h with h | h
    · cases h
      simp [mapGet]
    · have hne : k₀ ≠ k := fun hk => hnodup.1 (hk ▸ List.mem_map_of_mem Prod.fst h)
      simp only [List.map_cons, mapGet, hne, if_false]
      exact ih hnodup.2 h

/-! ## The result of `injectSelector` -/

theorem injectSelector_of_selector {obj spec selector : GoMap}
    (targetSelector : List (String × String))
    (h1 : mapGet obj "spec" = some (.obj spec))
    (h2 : mapGet spec "selector" = some (.obj selector)) :
    injectSelector obj targetSelector =
      (mapSet obj "spec" (.obj (mapSet spec "selector" (.obj
        (if targetSelector.length > 0 then
          mapSet selector "labelSelectors" (.obj (copyLabels [] targetSelector))
        else selector)))), none) := by
  simp [injectSelector, NestedMap_single, h1, h2, SetNestedMap, SetNestedField]

theorem injectSelector_of_no_selector {obj spec : GoMap}
    (targetSelector : List (String × String))
    (h1 : mapGet obj "spec" = some (.obj spec))
    (h2 : mapGet spec "selector" = none) :
    injectSelector obj targetSelector =
      (mapSet obj "spec" (.obj (mapSet spec "selector" (.obj
        (if targetSelector.length > 0 then
          mapSet [] "labelSelectors" (.obj (copyLabels [] targetSelector))
        else [])))), none) := by
  simp [injectSelector, NestedMap_single, h1, h2, SetNestedMap, SetNestedField]

theorem injectSelector_success {obj : GoMap} {targetSelector : List (String × String)}
    (h : (injectSelector obj targetSelector).2 = none) :
    ∃ spec, mapGet obj "spec" = some (.obj spec) ∧
      (mapGet spec "selector" = none ∨
        ∃ selector, mapGet spec "selector" = some (.obj selector)) := by
  cases h1 : mapGet obj "spec" with
  | none => simp [injectSelector, NestedMap_single, h1] at h
  | some v1 =>
    cases v1 with
    | obj spec =>
      refine ⟨spec, rfl, ?_⟩
      cases h2 : mapGet spec "selector" with
      | none => exact Or.inl rfl
      | some v2 =>
        cases v2 with
        | obj selector => exact Or.inr ⟨selector, rfl⟩
        | _ => simp [injectSelector, NestedMap_single, h1, h2] at h
    | _ => simp [injectSelector, NestedMap_single, h1] at h

theorem injectSelector_failure {obj : GoMap} {targetSelector : List (String × String)}
    (h : (injectSelector obj targetSelector).2 ≠ none) :
    (injectSelector obj targetSelector).1 = obj := by
  cases h1 : mapGet obj "spec" with
  | none => simp [injectSelector, NestedMap_single, h1]
  | some v1 =>
    cases v1 with
    | obj spec =>
      cases h2 : mapGet spec "selector" with
      | none => simp [injectSelector_of_no_selector targetSelector h1 h2] at h
      | some v2 =>
        cases v2 with
        | obj selector => simp [injectSelector_of_selector targetSelector h1 h2] at h
        | _ => simp [injectSelector, NestedMap_single, h1, h2]
    | _ => simp [injectSelector, NestedMap_single, h1]

/-! ## Claims on `injectSelector` -/

/-- C7: on a template whose `spec` is a mapping and whose `spec.selector` is
absent or a mapping, `injectSelector` with a non-empty target selector (a Go map,
so with distinct keys) succeeds, and afterwards `spec.selector.labelSelectors` is
a map holding exactly the entries of the target selector: every key of the target
selector maps to its value and no other key is bound, whatever labels were there
before. -/
theorem injectSelector_overwrites_labelSelectors (obj spec : GoMap)
    (targetSelector : List (String × String))
    (hspec : mapGet obj "spec" = some (.obj spec))
    (hselector : mapGet spec "selector" = none ∨
      ∃ selector, mapGet spec "selector" = some (.obj selector))
    (hnonempty : targetSelector ≠ [])
    (hkeys : (targetSelector.map Prod.fst).Nodup) :
    (injectSelector obj targetSelector).2 = none ∧
    NestedMap (injectSelector obj targetSelector).1 ["spec", "selector", "labelSelectors"] =
      .value (targetSelector.map (fun kv => (kv.1, JVal.str kv.2))) ∧
    (∀ k v, (k, v) ∈ targetSelector →
      mapGet (targetSelector.map (fun kv => (kv.1, JVal.str kv.2))) k = some (.str v)) ∧
    (∀ k, k ∉ targetSelector.map Prod.fst →
      mapGet (targetSelector.map (fun kv => (kv.1, JVal.str kv.2))) k = none) := by
  have hlen : targetSelector.length > 0 := List.length_pos.2 hnonempty
  have hcopy : copyLabels [] targetSelector =
      targetSelector.map (fun kv => (kv.1, JVal.str kv.2)) := by
    rw [copyLabels_append targetSelector [] hkeys (by simp)]
    rfl
  refine ⟨?_, ?_, fun k v h => mapGet_labels targetSelector hkeys k v h, ?_⟩
  · rcases hselector with h2 | ⟨selector, h2⟩
    · rw [injectSelector_of_no_selector targetSelector hspec h2]
    · rw [injectSelector_of_selector targetSelector hspec h2]
  · rcases hselector with h2 | ⟨selector, h2⟩
    · rw [injectSelector_of_no_selector targetSelector hspec h2]
      simp [NestedMap, NestedFieldNoCopy, mapGet_mapSet_same, hlen, hcopy]
    · rw [injectSelector_of_selector targetSelector hspec h2]
      simp [NestedMap, NestedFieldNoCopy, mapGet_mapSet_same, hlen, hcopy]
  · intro k hk
    apply mapGet_eq_none_of_not_mem
    simpa [List.map_map, Function.comp_def] using hk

/-- C7 on a template whose selector already holds `labelSelectors: {app: old,
tier: db}`: after injecting `{app: x, track: abc123}` the labels are exactly
those two entries. -/
theorem injectSelector_overwrites_labelSelectors_witness :
    NestedMap
        (injectSelector
          [("kind", .str "PodChaos"),
            ("spec", .obj [("selector", .obj [("namespaces", .arr [.str "default"]),
              ("labelSelectors", .obj [("app", .str "old"), ("tier", .str "db")])]),
              ("action", .str "pod-kill")])]
          [("app", "x"), ("track", "abc123")]).1
        ["spec", "selector", "labelSelectors"] =
      .value [("app", .str "x"), ("track", .str "abc123")] :=
  (injectSelector_overwrites_labelSelectors
    [("kind", .str "PodChaos"),
      ("spec", .obj [("selector", .obj [("namespaces", .arr [.str "default"]),
        ("labelSelectors", .obj [("app", .str "old"), ("tier", .str "db")])]),
        ("action", .str "pod-kill")])]
    [("selector", .obj [("namespaces", .arr [.str "default"]),
      ("labelSelectors", .obj [("app", .str "old"), ("tier", .str "db")])]),
      ("action", .str "pod-kill")]
    [("app", "x"), ("track", "abc123")]
    rfl
    (Or.inr ⟨[("namespaces", .arr [.str "default"]),
      ("labelSelectors", .obj [("app", .str "old"), ("tier", .str "db")])], rfl⟩)
    (by simp) (by decide)).2.1

/-- C8: when `injectSelector` succeeds, every top-level field other than `spec`,
every field of `spec` other than `selector` and every field of `spec.selector`
other than `labelSelectors` reads as before the call; where `spec.selector` was
absent, the selector created holds no field other than `labelSelectors`. -/
theorem injectSelector_frame (obj : GoMap) (targetSelector : List (String × String))
    (hok : (injectSelector obj targetSelector).2 = none) :
    (∀ k, k ≠ "spec" → mapGet (injectSelector obj targetSelector).1 k = mapGet obj k) ∧
    ∃ spec spec' selector',
      mapGet obj "spec" = some (.obj spec) ∧
      mapGet (injectSelector obj targetSelector).1 "spec" = some (.obj spec') ∧
      (∀ k, k ≠ "selector" → mapGet spec' k = mapGet spec k) ∧
      mapGet spec' "selector" = some (.obj selector') ∧
      (∀ selector, mapGet spec "selector" = some (.obj selector) →
        ∀ k, k ≠ "labelSelectors" → mapGet selector' k = mapGet selector k) ∧
      (mapGet spec "selector" = none →
        ∀ k, k ≠ "labelSelectors" → mapGet selector' k = none) := by
  obtain ⟨spec, h1, h2⟩ := injectSelector_success hok
  rcases h2 with h2 | ⟨selector, h2⟩
  · rw [injectSelector_of_no_selector targetSelector h1 h2]
    refine ⟨fun k hk => mapGet_mapSet_other obj "spec" k _ hk, spec, _, _, h1,
      mapGet_mapSet_same _ _ _, fun k hk => mapGet_mapSet_other spec "selector" k _ hk,
      mapGet_mapSet_same _ _ _, ?_, ?_⟩
    · intro selector hs
      rw [h2] at hs
      cases hs
    · intro _ k hk
      split
      · rw [mapGet_mapSet_other _ _ _ _ hk]
        rfl
      · rfl
  · rw [injectSelector_of_selector targetSelector h1 h2]
    refine ⟨fun k hk => mapGet_mapSet_other obj "spec" k _ hk, spec, _, _, h1,
      mapGet_mapSet_same _ _ _, fun k hk => mapGet_mapSet_other spec "selector" k _ hk,
      mapGet_mapSet_same _ _ _, ?_, ?_⟩
    · intro selector₀ hs k hk
      rw [h2] at hs
      cases hs
      split
      · rw [mapGet_mapSet_other _ _ _ _ hk]
      · rfl
    · intro hs
      rw [h2] at hs
      cases hs

/-- C8 on the spec's example: injecting `{app: x, track: abc123}` into a
template with `spec.selector.namespaces = ["default"]` leaves the top-level
field `kind` as it was. -/
theorem injectSelector_frame_witness :
    mapGet
        (injectSelector
          [("kind", .str "PodChaos"),
            ("spec", .obj [("selector", .obj [("namespaces", .arr [.str "default"])]),
              ("action", .str "pod-kill")])]
          [("app", "x"), ("track", "abc123")]).1
        "kind" =
      some (.str "PodChaos") :=
  ((injectSelector_frame
    [("kind", .str "PodChaos"),
      ("spec", .obj [("selector", .obj [("namespaces", .arr [.str "default"])]),
        ("action", .str "pod-kill")])]
    [("app", "x"), ("track", "abc123")] rfl).1 "kind" (by decide)).trans rfl

/-- C9: `injectSelector` is idempotent: on every template on which it succeeds,
a second application with the same target selector succeeds too and returns the
document the first application produced. -/
theorem injectSelector_idempotent (obj : GoMap) (targetSelector : List (String × String))
    (hok : (injectSelector obj targetSelector).2 = none) :
    injectSelector (injectSelector obj targetSelector).1 targetSelector =
      ((injectSelector obj targetSelector).1, none) := by
  obtain ⟨spec, h1, h2⟩ := injectSelector_success hok
  rcases h2 with h2 | ⟨selector, h2⟩
  · rw [injectSelector_of_no_selector targetSelector h1 h2]
    rw [injectSelector_of_selector targetSelector (mapGet_mapSet_same obj "spec" _)
      (mapGet_mapSet_same spec "selector" _)]
    by_cases hlen : targetSelector.length > 0
    · simp only [hlen, if_true, mapSet_mapSet_same]
    · simp only [hlen, if_false, mapSet_mapSet_same]
  · rw [injectSelector_of_selector targetSelector h1 h2]
    rw [injectSelector_of_selector targetSelector (mapGet_mapSet_same obj "spec" _)
      (mapGet_mapSet_same spec "selector" _)]
    by_cases hlen : targetSelector.length > 0
    · simp only [hlen, if_true, mapSet_mapSet_same]
    · simp only [hlen, if_false, mapSet_mapSet_same]

/-- C9 on a template without `spec.selector`: the second injection of
`{app: x, track: abc123}` returns the document of the first. -/
theorem injectSelector_idempotent_witness :
    injectSelector
        (injectSelector
          [("kind", .str "PodChaos"), ("spec", .obj [("action", .str "pod-kill")])]
          [("app", "x"), ("track", "abc123")]).1
        [("app", "x"), ("track", "abc123")] =
      ([("kind", .str "PodChaos"),
        ("spec", .obj [("action", .str "pod-kill"),
          ("selector", .obj [("labelSelectors",
            .obj [("app", .str "x"), ("track", .str "abc123")])])])], none) :=
  (injectSelector_idempotent
    [("kind", .str "PodChaos"), ("spec", .obj [("action", .str "pod-kill")])]
    [("app", "x"), ("track", "abc123")] rfl).trans rfl

/-- C10: on a template with no `spec` section, `injectSelector` returns the error
"spec not found in experiment" for every target selector and leaves the template
as it was; more generally, whenever it returns an error the template is
unchanged. -/
theorem injectSelector_without_spec (obj : GoMap) (targetSelector : List (String × String)) :
    (mapGet obj "spec" = none →
      injectSelector obj targetSelector = (obj, some .specNotFound)) ∧
    ((injectSelector obj targetSelector).2 ≠ none →
      (injectSelector obj targetSelector).1 = obj) := by
  refine ⟨fun h => ?_, injectSelector_failure⟩
  simp [injectSelector, NestedMap_single, h]

/-- C10 on a template that holds only `kind` and `metadata`. -/
theorem injectSelector_without_spec_witness :
    injectSelector
        [("kind", .str "PodChaos"), ("metadata", .obj [("name", .str "pod-kill")])]
        [("app", "x")] =
      ([("kind", .str "PodChaos"), ("metadata", .obj [("name", .str "pod-kill")])],
        some .specNotFound) :=
  (injectSelector_without_spec
    [("kind", .str "PodChaos"), ("metadata", .obj [("name", .str "pod-kill")])]
    [("app", "x")]).1 rfl

/-! ## Claims on `getGVR` -/

/-- C11: `getGVR` is the lookup in a closed table of eight kinds: for each of
them it returns, without error, group "chaos-mesh.org", version "v1alpha1" and
the lowercased kind as resource; for every other string it returns an error and
the zero coordinates. -/
theorem getGVR_closed_table (kind : String) :
    (kind ∈ ["PodChaos", "NetworkChaos", "StressChaos", "IOChaos", "TimeChaos",
        "KernelChaos", "DNSChaos", "HTTPChaos"] →
      getGVR kind = (⟨"chaos-mesh.org", "v1alpha1", lowercase kind⟩, none)) ∧
    (kind ∉ ["PodChaos", "NetworkChaos", "StressChaos", "IOChaos", "TimeChaos",
        "KernelChaos", "DNSChaos", "HTTPChaos"] →
      getGVR kind = (⟨"", "", ""⟩, some ("unsupported chaos kind: " ++ kind))) := by
  constructor
  · intro h
    simp only [List.mem_cons, List.mem_singleton, List.not_mem_nil, or_false] at h
    rcases h with h | h | h | h | h | h | h | h <;> subst h <;> rfl
  · intro h
    simp only [List.mem_cons, List.mem_singleton, List.not_mem_nil, or_false, not_or] at h
    obtain ⟨h1, h2, h3, h4, h5, h6, h7, h8⟩ := h
    unfold getGVR
    split <;> first | rfl | contradiction

/-- C11 on the kinds of `TestGetGVR` and on spellings outside the table. -/
theorem getGVR_closed_table_witness :
    getGVR "PodChaos" = (⟨"chaos-mesh.org", "v1alpha1", "podchaos"⟩, none) ∧
    getGVR "UnsupportedChaos" =
      (⟨"", "", ""⟩, some "unsupported chaos kind: UnsupportedChaos") ∧
    getGVR "podchaos" = (⟨"", "", ""⟩, some "unsupported chaos kind: podchaos") ∧
    getGVR "" = (⟨"", "", ""⟩, some "unsupported chaos kind: ") :=
  ⟨(getGVR_closed_table "PodChaos").1 (by decide),
    (getGVR_closed_table "UnsupportedChaos").2 (by decide),
    (getGVR_closed_table "podchaos").2 (by decide),
    (getGVR_closed_table "").2 (by decide)⟩

/-! ## Conditions of a finished experiment -/

/-- On a "Finished" document whose `status.conditions` is a sequence, the result
is that of the loop over the sequence. -/
theorem checkExperimentStatus_finished_conditions {obj status experiment : GoMap}
    {conditions : List JVal}
    (h1 : mapGet obj "status" = some (.obj status))
    (h2 : mapGet status "experiment" = some (.obj experiment))
    (h3 : mapGet experiment "phase" = some (.str "Finished"))
    (h4 : mapGet status "conditions" = some (.arr conditions)) :
    checkExperimentStatus obj = checkConditions conditions := by
  have hr : ¬ ("Finished" = "Running") := by decide
  rw [checkExperimentStatus_of_phase h1 h2 h3, NestedSlice_single_value.2 h4]
  simp only [hr, if_false, if_true]

/-- Replacing `status.conditions` of a "Finished" document by another sequence
gives the result of the loop over that sequence. -/
theorem checkExperimentStatus_replace_conditions {obj status : GoMap}
    (conditions : List JVal)
    (hphase : NestedString obj ["status", "experiment", "phase"] = .value "Finished")
    (hstatus : mapGet obj "status" = some (.obj status)) :
    checkExperimentStatus
        (mapSet obj "status" (.obj (mapSet status "conditions" (.arr conditions)))) =
      checkConditions conditions := by
  obtain ⟨status', experiment, h1, h2, h3⟩ := (phase_readable_iff obj "Finished").1 hphase
  rw [hstatus] at h1
  cases h1
  refine checkExperimentStatus_finished_conditions (mapGet_mapSet_same obj "status" _)
    ?_ h3 (mapGet_mapSet_same status "conditions" _)
  rw [mapGet_mapSet_other status "conditions" "experiment" _ (by decide)]
  exact h2

theorem checkConditions_eq (conditions : List JVal) :
    checkConditions conditions =
      if ∃ c ∈ conditions, conditionFails c = true then ⟨false, true, none⟩
      else ⟨true, true, none⟩ := by
  induction conditions with
  | nil => simp [checkConditions]
  | cons c rest ih =>
    unfold checkConditions
    by_cases h : conditionFails c = true
    · simp [h]
    · simp only [h, if_false, Bool.false_eq_true]
      rw [ih]
      simp [h]

theorem malformedCondition_not_fails (c : JVal) (h : malformedCondition c = true) :
    conditionFails c = false := by
  cases hf : conditionFails c with
  | false => rfl
  | true =>
    obtain ⟨m, t, s, rfl, ht, hs, _⟩ := (conditionFails_iff c).1 hf
    simp [malformedCondition, ht, hs] at h

/-! ## Claims on the conditions of a finished experiment -/

/-- C18: on a "Finished" document the result of `checkExperimentStatus` does
not depend on the order of `status.conditions`: the document with the sequence
replaced by any permutation of it gives the same `(success, finished, err)`. -/
theorem checkExperimentStatus_condition_order (obj status : GoMap)
    (conditions permuted : List JVal)
    (hphase : NestedString obj ["status", "experiment", "phase"] = .value "Finished")
    (hstatus : mapGet obj "status" = some (.obj status))
    (hconditions : mapGet status "conditions" = some (.arr conditions))
    (hperm : conditions.Perm permuted) :
    checkExperimentStatus
        (mapSet obj "status" (.obj (mapSet status "conditions" (.arr permuted)))) =
      checkExperimentStatus obj := by
  obtain ⟨status', experiment, h1, h2, h3⟩ := (phase_readable_iff obj "Finished").1 hphase
  rw [hstatus] at h1
  cases h1
  rw [checkExperimentStatus_replace_conditions permuted hphase hstatus,
    checkExperimentStatus_finished_conditions hstatus h2 h3 hconditions,
    checkConditions_eq, checkConditions_eq]
  have hiff : (∃ c ∈ permuted, conditionFails c = true) ↔
      (∃ c ∈ conditions, conditionFails c = true) :=
    ⟨fun ⟨c, hc, hf⟩ => ⟨c, hperm.mem_iff.2 hc, hf⟩,
      fun ⟨c, hc, hf⟩ => ⟨c, hperm.mem_iff.1 hc, hf⟩⟩
  simp only [hiff]

/-- C18 on a document whose conditions are a passing `AllInjected` followed by a
failing `AllRecovered`: with the two swapped the result is the same failure. -/
theorem checkExperimentStatus_condition_order_witness :
    checkExperimentStatus
        [("status", .obj [("experiment", .obj [("phase", .str "Finished")]),
          ("conditions", .arr [
            .obj [("type", .str "AllRecovered"), ("status", .str "False")],
            .obj [("type", .str "AllInjected"), ("status", .str "True")]])])] =
      ⟨false, true, none⟩ :=
  (checkExperimentStatus_condition_order
    [("status", .obj [("experiment", .obj [("phase", .str "Finished")]),
      ("conditions", .arr [
        .obj [("type", .str "AllInjected"), ("status", .str "True")],
        .obj [("type", .str "AllRecovered"), ("status", .str "False")]])])]
    [("experiment", .obj [("phase", .str "Finished")]),
      ("conditions", .arr [
        .obj [("type", .str "AllInjected"), ("status", .str "True")],
        .obj [("type", .str "AllRecovered"), ("status", .str "False")]])]
    [.obj [("type", .str "AllInjected"), ("status", .str "True")],
      .obj [("type", .str "AllRecovered"), ("status", .str "False")]]
    [.obj [("type", .str "AllRecovered"), ("status", .str "False")],
      .obj [("type", .str "AllInjected"), ("status", .str "True")]]
    rfl rfl rfl (List.Perm.swap _ _ [])).trans rfl

/-- C20: on a "Finished" document, the entries of `status.conditions` that are
not records, or whose `type` or `status` is missing or not a string, do not
count: the document with all of them removed gives the same result. -/
theorem checkExperimentStatus_ignores_malformed_conditions (obj status : GoMap)
    (conditions : List JVal)
    (hphase : NestedString obj ["status", "experiment", "phase"] = .value "Finished")
    (hstatus : mapGet obj "status" = some (.obj status))
    (hconditions : mapGet status "conditions" = some (.arr conditions)) :
    checkExperimentStatus
        (mapSet obj "status" (.obj (mapSet status "conditions"
          (.arr (conditions.filter (fun c => !malformedCondition c)))))) =
      checkExperimentStatus obj := by
  obtain ⟨status', experiment, h1, h2, h3⟩ := (phase_readable_iff obj "Finished").1 hphase
  rw [hstatus] at h1
  cases h1
  rw [checkExperimentStatus_replace_conditions _ hphase hstatus,
    checkExperimentStatus_finished_conditions hstatus h2 h3 hconditions,
    checkConditions_eq, checkConditions_eq]
  have hiff : (∃ c ∈ conditions.filter (fun c => !malformedCondition c),
        conditionFails c = true) ↔ (∃ c ∈ conditions, conditionFails c = true) := by
    constructor
    · rintro ⟨c, hc, hf⟩
      exact ⟨c, (List.mem_filter.1 hc).1, hf⟩
    · rintro ⟨c, hc, hf⟩
      refine ⟨c, List.mem_filter.2 ⟨hc, ?_⟩, hf⟩
      cases hm : malformedCondition c with
      | false => rfl
      | true =>
        rw [malformedCondition_not_fails c hm] at hf
        cases hf
  simp only [hiff]

/-- C20 on the claim's example: a sole condition of type "AllInjected" that
carries no status gives `finished = true` and `success = true`, as the document
without it does. -/
theorem checkExperimentStatus_ignores_malformed_conditions_witness :
    checkExperimentStatus
        [("status", .obj [("experiment", .obj [("phase", .str "Finished")]),
          ("conditions", .arr [.obj [("type", .str "AllInjected")]])])] =
      ⟨true, true, none⟩ :=
  ((checkExperimentStatus_ignores_malformed_conditions
    [("status", .obj [("experiment", .obj [("phase", .str "Finished")]),
      ("conditions", .arr [.obj [("type", .str "AllInjected")]])])]
    [("experiment", .obj [("phase", .str "Finished")]),
      ("conditions", .arr [.obj [("type", .str "AllInjected")]])]
    [.obj [("type", .str "AllInjected")]]
    rfl rfl rfl).symm).trans rfl

/-! ## Claims on `DeleteExperiment` and `CreateExperiment` -/

/-- C12: `DeleteExperiment` returns no error exactly when the kind is supported
and the API delete either succeeds or reports that the resource is not found;
it returns an error exactly when the kind is unsupported or the API delete fails
with an error other than not-found. -/
theorem DeleteExperiment_absent_is_success
    (delete : GroupVersionResource → String → String → Option ApiError)
    (ns name kind : String) :
    (DeleteExperiment delete ns name kind = none ↔
      (getGVR kind).2 = none ∧
        (delete (getGVR kind).1 ns name = none ∨
          ∃ err, delete (getGVR kind).1 ns name = some err ∧ err.notFound = true)) ∧
    (DeleteExperiment delete ns name kind ≠ none ↔
      (getGVR kind).2 ≠ none ∨
        ((getGVR kind).2 = none ∧
          ∃ err, delete (getGVR kind).1 ns name = some err ∧ err.notFound = false)) := by
  unfold DeleteExperiment
  generalize getGVR kind = p
  obtain ⟨gvr, gerr⟩ := p
  cases gerr with
  | some e => simp
  | none =>
    simp only
    cases hd : delete gvr ns name with
    | none => simp
    | some err =>
      cases hn : err.notFound <;> simp [hn]

/-- C12 on a supported kind whose resource is already absent: no error, as when
the delete succeeds. -/
theorem DeleteExperiment_absent_is_success_witness :
    DeleteExperiment (fun _ _ _ => some ⟨"podchaos pod-kill not found", true⟩)
        "default" "pod-kill" "PodChaos" = none ∧
      DeleteExperiment (fun _ _ _ => none) "default" "pod-kill" "PodChaos" = none :=
  ⟨((DeleteExperiment_absent_is_success _ "default" "pod-kill" "PodChaos").1).2
      ⟨rfl, Or.inr ⟨_, rfl, rfl⟩⟩,
    ((DeleteExperiment_absent_is_success _ "default" "pod-kill" "PodChaos").1).2
      ⟨rfl, Or.inl rfl⟩⟩

theorem getNestedString_injectSelector (obj : GoMap) (targetSelector : List (String × String))
    (k : String) (fields : List String) (hk : k ≠ "spec") :
    getNestedString (injectSelector obj targetSelector).1 (k :: fields) =
      getNestedString obj (k :: fields) := by
  have hget : mapGet (injectSelector obj targetSelector).1 k = mapGet obj k := by
    cases herr : (injectSelector obj targetSelector).2 with
    | some e => rw [injectSelector_failure (by rw [herr]; simp)]
    | none =>
      obtain ⟨spec, h1, h2⟩ := injectSelector_success herr
      rcases h2 with h2 | ⟨selector, h2⟩
      · rw [injectSelector_of_no_selector targetSelector h1 h2]
        exact mapGet_mapSet_other obj "spec" k _ hk
      · rw [injectSelector_of_selector targetSelector h1 h2]
        exact mapGet_mapSet_other obj "spec" k _ hk
  simp only [getNestedString, NestedString, NestedFieldNoCopy, hget]

theorem CreateExperiment_submits (host : Host) (experimentYAML : String)
    (targetSelector : List (String × String)) (obj : GoMap)
    (hparse : host.yamlUnmarshal experimentYAML = .ok obj)
    (hinject : (injectSelector obj targetSelector).2 = none)
    (hkind : (getGVR (GetKind obj)).2 = none) :
    CreateExperiment host experimentYAML targetSelector =
      match host.create (getGVR (GetKind obj)).1
          (if GetNamespace obj = "" then "default" else GetNamespace obj)
          (injectSelector obj targetSelector).1 with
      | .error err => .error ("failed to create experiment: " ++ err)
      | .ok result => .ok result := by
  have hk : GetKind (injectSelector obj targetSelector).1 = GetKind obj :=
    getNestedString_injectSelector obj targetSelector "kind" [] (by decide)
  have hn : GetNamespace (injectSelector obj targetSelector).1 = GetNamespace obj :=
    getNestedString_injectSelector obj targetSelector "metadata" ["namespace"] (by decide)
  unfold CreateExperiment
  simp only [hparse]
  generalize hi : injectSelector obj targetSelector = r at hinject hk hn
  obtain ⟨obj', e⟩ := r
  simp only at hinject hk hn
  subst hinject
  simp only [hk, hn]
  generalize getGVR (GetKind obj) = g at hkind
  obtain ⟨gvr, gerr⟩ := g
  simp only at hkind
  subst hkind
  rfl

/-- C17, as stated, fails on a template that declares `metadata.namespace: 5`:
the namespace is neither absent nor empty, yet the experiment is submitted to the
fallback namespace "default". -/
theorem CreateExperiment_namespace_counterexample :
    mapGet [("name", .str "pod-kill"), ("namespace", .int 5)] "namespace" = some (.int 5) ∧
    (CreateExperiment
        (exampleHost ⟨"", "", "", "", "", true⟩
          [("kind", .str "PodChaos"),
            ("metadata", .obj [("name", .str "pod-kill"), ("namespace", .int 5)]),
            ("spec", .obj [("action", .str "pod-kill")])]
          ⟨[], .closed⟩ none)
        "" [("app", "x")]).map GetNamespace = .ok "default" :=
  ⟨rfl, rfl⟩

/-- C17, amended: once the template is decoded, the selector injected and the
kind resolved, `CreateExperiment` submits the template after selector injection,
to the namespace that `metadata.namespace` reads as when it is a non-empty
string, and to the fallback namespace "default" in every other case: when it is
absent, empty, or not a string. -/
theorem CreateExperiment_namespace (host : Host) (experimentYAML : String)
    (targetSelector : List (String × String)) (obj : GoMap)
    (hparse : host.yamlUnmarshal experimentYAML = .ok obj)
    (hinject : (injectSelector obj targetSelector).2 = none)
    (hkind : (getGVR (GetKind obj)).2 = none) :
    (∀ ns, NestedString obj ["metadata", "namespace"] = .value ns → ns ≠ "" →
      CreateExperiment host experimentYAML targetSelector =
        match host.create (getGVR (GetKind obj)).1 ns
            (injectSelector obj targetSelector).1 with
        | .error err => .error ("failed to create experiment: " ++ err)
        | .ok result => .ok result) ∧
    ((∀ ns, NestedString obj ["metadata", "namespace"] = .value ns → ns = "") →
      CreateExperiment host experimentYAML targetSelector =
        match host.create (getGVR (GetKind obj)).1 "default"
            (injectSelector obj targetSelector).1 with
        | .error err => .error ("failed to create experiment: " ++ err)
        | .ok result => .ok result) := by
  rw [CreateExperiment_submits host experimentYAML targetSelector obj hparse hinject hkind]
  constructor
  · intro ns hns hne
    have h : GetNamespace obj = ns := by simp [GetNamespace, getNestedString, hns]
    simp only [h, hne, if_false]
  · intro hall
    have h : GetNamespace obj = "" := by
      unfold GetNamespace getNestedString
      cases hv : NestedString obj ["metadata", "namespace"] with
      | value ns => exact hall ns hv
      | notFound => rfl
      | typeError => rfl
    simp only [h, if_true]

/-- C17, amended, on the template of the integration example without its
namespace: the request goes to "default" and carries the injected selector. -/
theorem CreateExperiment_namespace_witness :
    CreateExperiment
        (exampleHost ⟨"", "", "", "", "", true⟩
          [("kind", .str "PodChaos"), ("metadata", .obj [("name", .str "pod-kill")]),
            ("spec", .obj [("action", .str "pod-kill")])]
          ⟨[], .closed⟩ none)
        "" [("app", "x")] =
      .ok [("kind", .str "PodChaos"),
        ("metadata", .obj [("name", .str "pod-kill"), ("namespace", .str "default")]),
        ("spec", .obj [("action", .str "pod-kill"),
          ("selector", .obj [("labelSelectors", .obj [("app", .str "x")])])])] :=
  ((CreateExperiment_namespace
    (exampleHost ⟨"", "", "", "", "", true⟩
      [("kind", .str "PodChaos"), ("metadata", .obj [("name", .str "pod-kill")]),
        ("spec", .obj [("action", .str "pod-kill")])]
      ⟨[], .closed⟩ none)
    "" [("app", "x")]
    [("kind", .str "PodChaos"), ("metadata", .obj [("name", .str "pod-kill")]),
      ("spec", .obj [("action", .str "pod-kill")])]
    rfl rfl rfl).2
    (by
      intro ns h
      cases h)).trans rfl

/-! ## Validation of the configuration -/

/-- C15, as stated, fails on the timeout text "-5m": it parses, to a negative
duration, and the configuration is accepted. -/
theorem validateConfig_positive_timeout_counterexample :
    ParseDuration (fun f unit scale => f * unit / 10 ^ scale) "-5m" =
      some (-300000000000) ∧
    validateConfig
        (exampleHost ⟨"", "kind: PodChaos", "app", "x", "-5m", true⟩ [] ⟨[], .closed⟩ none)
        ⟨"", "kind: PodChaos", "app", "x", "-5m", true⟩ = none :=
  ⟨rfl, rfl⟩

/-- C15, amended: `validateConfig` accepts a configuration exactly when the
template text, the target label key and the target label value are non-empty and
the timeout text is empty or parses as a duration, of whatever sign; the
timeout text "invalid-timeout" does not parse, so that a configuration with it
is rejected. -/
theorem validateConfig_accepts_iff (host : Host) (config : Config) :
    (validateConfig host config = none ↔
      config.ChaosExperimentCRD ≠ "" ∧ config.TargetReplicaSetLabel ≠ "" ∧
        config.TargetReplicaSetValue ≠ "" ∧
        (config.Timeout = "" ∨
          ∃ d, ParseDuration host.floatProduct config.Timeout = some d)) ∧
    (config.Timeout = "invalid-timeout" → validateConfig host config ≠ none) := by
  have hbad : ParseDuration host.floatProduct "invalid-timeout" = none := rfl
  constructor
  · unfold validateConfig
    by_cases h1 : config.ChaosExperimentCRD = ""
    · simp [h1]
    · by_cases h2 : config.TargetReplicaSetLabel = ""
      · simp [h1, h2]
      · by_cases h3 : config.TargetReplicaSetValue = ""
        · simp [h1, h2, h3]
        · by_cases h4 : config.Timeout = ""
          · simp [h1, h2, h3, h4]
          · cases hp : ParseDuration host.floatProduct config.Timeout with
            | none => simp [h1, h2, h3, h4, hp]
            | some d => simp [h1, h2, h3, h4, hp]
  · intro ht
    unfold validateConfig
    by_cases h1 : config.ChaosExperimentCRD = ""
    · simp [h1]
    · by_cases h2 : config.TargetReplicaSetLabel = ""
      · simp [h1, h2]
      · by_cases h3 : config.TargetReplicaSetValue = ""
        · simp [h1, h2, h3]
        · simp [h1, h2, h3, ht, hbad]

/-- C15, amended, on the valid configuration of `TestValidateConfig`. -/
theorem validateConfig_accepts_iff_witness :
    validateConfig
        (exampleHost ⟨"", "", "", "", "", true⟩ [] ⟨[], .closed⟩ none)
        ⟨"", "apiVersion: chaos-mesh.org/v1alpha1\nkind: PodChaos",
          "rollouts-pod-template-hash", "abc123", "5m", true⟩ = none :=
  ((validateConfig_accepts_iff
    (exampleHost ⟨"", "", "", "", "", true⟩ [] ⟨[], .closed⟩ none)
    ⟨"", "apiVersion: chaos-mesh.org/v1alpha1\nkind: PodChaos",
      "rollouts-pod-template-hash", "abc123", "5m", true⟩).1).2
    ⟨by decide, by decide, by decide, Or.inr ⟨300000000000, rfl⟩⟩

/-! ## The stages of `Run` -/

theorem Run_of_parse_error {host : Host} {metric : Metric} {err : String}
    (hparse : parseConfig host metric = .error err) :
    Run host metric =
      (MarkMeasurementError host.finishTime
        ⟨.unset, "", some host.startTime, none, "", [], none⟩ err, []) := by
  simp only [Run, hparse]

theorem Run_of_invalid {host : Host} {metric : Metric} {config : Config} {err : String}
    (hparse : parseConfig host metric = .ok config)
    (hvalid : validateConfig host config = some err) :
    Run host metric =
      (MarkMeasurementError host.finishTime
        ⟨.unset, "", some host.startTime, none, "", [], none⟩ err, []) := by
  simp only [Run, hparse, hvalid]

theorem Run_of_client_error {host : Host} {metric : Metric} {config : Config} {err : String}
    (hparse : parseConfig host metric = .ok config)
    (hvalid : validateConfig host config = none)
    (hclient : host.newClient = some err) :
    Run host metric =
      (MarkMeasurementError host.finishTime
        ⟨.unset, "", some host.startTime, none, "", [], none⟩ err, [.NewClient]) := by
  simp only [Run, hparse, hvalid, hclient]

theorem Run_of_create_error {host : Host} {metric : Metric} {config : Config} {err : String}
    (hparse : parseConfig host metric = .ok config)
    (hvalid : validateConfig host config = none)
    (hclient : host.newClient = none)
    (hcreate : CreateExperiment host config.ChaosExperimentCRD
      [(config.TargetReplicaSetLabel, config.TargetReplicaSetValue)] = .error err) :
    Run host metric =
      (MarkMeasurementError host.finishTime
        ⟨.unset, "", some host.startTime, none, "", [], none⟩ err,
        [.NewClient, .CreateExperiment config.ChaosExperimentCRD
          [(config.TargetReplicaSetLabel, config.TargetReplicaSetValue)]]) := by
  simp only [Run, hparse, hvalid, hclient, hcreate]

/-- The calls of a run that reaches the watch: the client is constructed, the
experiment created and watched, and then deleted when `CleanupOnFinish` is set. -/
theorem Run_of_watch {host : Host} {metric : Metric} {config : Config}
    {experiment : GoMap} {success : Bool} {werr : Option WatchError}
    (hparse : parseConfig host metric = .ok config)
    (hvalid : validateConfig host config = none)
    (hclient : host.newClient = none)
    (hcreate : CreateExperiment host config.ChaosExperimentCRD
      [(config.TargetReplicaSetLabel, config.TargetReplicaSetValue)] = .ok experiment)
    (hwatch : WatchExperiment (host.watch (parseTimeout host config))
      (GetNamespace experiment) (GetName experiment) (GetKind experiment) =
        (success, werr)) :
    Run host metric =
      ((match werr with
        | some err =>
          MarkMeasurementError host.finishTime
            ⟨.unset, "", some host.startTime, none, "", [], none⟩ (err.Error host)
        | none =>
          ⟨if success then .Successful else .Failed, "", some host.startTime,
            some host.finishTime, if success then "1" else "0",
            [("experimentName", GetName experiment),
              ("experimentNamespace", GetNamespace experiment),
              ("experimentKind", GetKind experiment),
              ("targetSelector",
                config.TargetReplicaSetLabel ++ "=" ++ config.TargetReplicaSetValue)],
            none⟩),
        [.NewClient,
          .CreateExperiment config.ChaosExperimentCRD
            [(config.TargetReplicaSetLabel, config.TargetReplicaSetValue)],
          .WatchExperiment (GetNamespace experiment) (GetName experiment)
            (GetKind experiment) (parseTimeout host config)] ++
          if config.CleanupOnFinish then
            [.DeleteExperiment (GetNamespace experiment) (GetName experiment)
              (GetKind experiment)
              (DeleteExperiment host.delete (GetNamespace experiment)
                (GetName experiment) (GetKind experiment))]
          else []) := by
  simp only [Run, hparse, hvalid, hclient, hcreate, hwatch]
  cases werr with
  | some err => rfl
  | none => cases success <;> rfl

/-! ## Claims on `Run` -/

/-- C13: `Run` reports phase `Successful`, with value "1", exactly when
configuration parsing, validation, client construction and experiment creation
all succeed and the watch returns `success = true` with no error.  When a step
returns an error the measurement has phase `Error` and carries that error's
message, and when the watch ends with `success = false` and no error it has phase
`Failed` and value "0". -/
theorem Run_outcome (host : Host) (metric : Metric) :
    ((Run host metric).1.Phase = .Successful ↔
      ∃ config experiment, parseConfig host metric = .ok config ∧
        validateConfig host config = none ∧ host.newClient = none ∧
        CreateExperiment host config.ChaosExperimentCRD
          [(config.TargetReplicaSetLabel, config.TargetReplicaSetValue)] = .ok experiment ∧
        WatchExperiment (host.watch (parseTimeout host config)) (GetNamespace experiment)
          (GetName experiment) (GetKind experiment) = (true, none)) ∧
    ((Run host metric).1.Phase = .Successful → (Run host metric).1.Value = "1") ∧
    (∀ err, parseConfig host metric = .error err →
      (Run host metric).1.Phase = .Error ∧ (Run host metric).1.Message = err) ∧
    (∀ config err, parseConfig host metric = .ok config →
      validateConfig host config = some err →
      (Run host metric).1.Phase = .Error ∧ (Run host metric).1.Message = err) ∧
    (∀ config err, parseConfig host metric = .ok config →
      validateConfig host config = none → host.newClient = some err →
      (Run host metric).1.Phase = .Error ∧ (Run host metric).1.Message = err) ∧
    (∀ config err, parseConfig host metric = .ok config →
      validateConfig host config = none → host.newClient = none →
      CreateExperiment host config.ChaosExperimentCRD
        [(config.TargetReplicaSetLabel, config.TargetReplicaSetValue)] = .error err →
      (Run host metric).1.Phase = .Error ∧ (Run host metric).1.Message = err) ∧
    (∀ config experiment success err, parseConfig host metric = .ok config →
      validateConfig host config = none → host.newClient = none →
      CreateExperiment host config.ChaosExperimentCRD
        [(config.TargetReplicaSetLabel, config.TargetReplicaSetValue)] = .ok experiment →
      WatchExperiment (host.watch (parseTimeout host config)) (GetNamespace experiment)
        (GetName experiment) (GetKind experiment) = (success, some err) →
      (Run host metric).1.Phase = .Error ∧
        (Run host metric).1.Message = err.Error host) ∧
    (∀ config experiment, parseConfig host metric = .ok config →
      validateConfig host config = none → host.newClient = none →
      CreateExperiment host config.ChaosExperimentCRD
        [(config.TargetReplicaSetLabel, config.TargetReplicaSetValue)] = .ok experiment →
      WatchExperiment (host.watch (parseTimeout host config)) (GetNamespace experiment)
        (GetName experiment) (GetKind experiment) = (false, none) →
      (Run host metric).1.Phase = .Failed ∧ (Run host metric).1.Value = "0") := by
  have hsucc : (Run host metric).1.Phase = .Successful →
      (Run host metric).1.Value = "1" ∧
      ∃ config experiment, parseConfig host metric = .ok config ∧
        validateConfig host config = none ∧ host.newClient = none ∧
        CreateExperiment host config.ChaosExperimentCRD
          [(config.TargetReplicaSetLabel, config.TargetReplicaSetValue)] = .ok experiment ∧
        WatchExperiment (host.watch (parseTimeout host config)) (GetNamespace experiment)
          (GetName experiment) (GetKind experiment) = (true, none) := by
    intro h
    cases hparse : parseConfig host metric with
    | error err => simp [Run_of_parse_error hparse, MarkMeasurementError] at h
    | ok config =>
      cases hvalid : validateConfig host config with
      | some err => simp [Run_of_invalid hparse hvalid, MarkMeasurementError] at h
      | none =>
        cases hclient : host.newClient with
        | some err =>
          simp [Run_of_client_error hparse hvalid hclient, MarkMeasurementError] at h
        | none =>
          cases hcreate : CreateExperiment host config.ChaosExperimentCRD
              [(config.TargetReplicaSetLabel, config.TargetReplicaSetValue)] with
          | error err =>
            simp [Run_of_create_error hparse hvalid hclient hcreate,
              MarkMeasurementError] at h
          | ok experiment =>
            cases hwatch : WatchExperiment (host.watch (parseTimeout host config))
                (GetNamespace experiment) (GetName experiment) (GetKind experiment) with
            | mk success werr =>
              rw [Run_of_watch hparse hvalid hclient hcreate hwatch] at h ⊢
              cases werr with
              | some err => simp [MarkMeasurementError] at h
              | none =>
                cases success with
                | false => simp at h
                | true => exact ⟨rfl, config, experiment, rfl, hvalid, rfl, hcreate, hwatch⟩
  refine ⟨⟨fun h => (hsucc h).2, ?_⟩, fun h => (hsucc h).1, ?_, ?_, ?_, ?_, ?_, ?_⟩
  · rintro ⟨config, experiment, hparse, hvalid, hclient, hcreate, hwatch⟩
    rw [Run_of_watch hparse hvalid hclient hcreate hwatch]
    rfl
  · intro err hparse
    rw [Run_of_parse_error hparse]
    exact ⟨rfl, rfl⟩
  · intro config err hparse hvalid
    rw [Run_of_invalid hparse hvalid]
    exact ⟨rfl, rfl⟩
  · intro config err hparse hvalid hclient
    rw [Run_of_client_error hparse hvalid hclient]
    exact ⟨rfl, rfl⟩
  · intro config err hparse hvalid hclient hcreate
    rw [Run_of_create_error hparse hvalid hclient hcreate]
    exact ⟨rfl, rfl⟩
  · intro config experiment success err hparse hvalid hclient hcreate hwatch
    rw [Run_of_watch hparse hvalid hclient hcreate hwatch]
    exact ⟨rfl, rfl⟩
  · intro config experiment hparse hvalid hclient hcreate hwatch
    rw [Run_of_watch hparse hvalid hclient hcreate hwatch]
    exact ⟨rfl, rfl⟩

/-- C13 on a run whose watch times out after one "Running" update: the
measurement has phase `Error` and carries the timeout message. -/
theorem Run_outcome_witness :
    (Run
        (exampleHost
          ⟨"", "kind: PodChaos", "app", "x", "5m", true⟩
          [("kind", .str "PodChaos"), ("metadata", .obj [("name", .str "pod-kill")]),
            ("spec", .obj [("action", .str "pod-kill")])]
          ⟨[⟨.Modified, .unstructured
            [("status", .obj [("experiment", .obj [("phase", .str "Running")])])]⟩],
            .deadline⟩
          none)
        ⟨[(PluginName, "")]⟩).1.Phase = .Error ∧
    (Run
        (exampleHost
          ⟨"", "kind: PodChaos", "app", "x", "5m", true⟩
          [("kind", .str "PodChaos"), ("metadata", .obj [("name", .str "pod-kill")]),
            ("spec", .obj [("action", .str "pod-kill")])]
          ⟨[⟨.Modified, .unstructured
            [("status", .obj [("experiment", .obj [("phase", .str "Running")])])]⟩],
            .deadline⟩
          none)
        ⟨[(PluginName, "")]⟩).1.Message = "timeout waiting for experiment to complete" :=
  (Run_outcome
    (exampleHost
      ⟨"", "kind: PodChaos", "app", "x", "5m", true⟩
      [("kind", .str "PodChaos"), ("metadata", .obj [("name", .str "pod-kill")]),
        ("spec", .obj [("action", .str "pod-kill")])]
      ⟨[⟨.Modified, .unstructured
        [("status", .obj [("experiment", .obj [("phase", .str "Running")])])]⟩],
        .deadline⟩
      none)
    ⟨[(PluginName, "")]⟩).2.2.2.2.2.2.1
    ⟨"", "kind: PodChaos", "app", "x", "5m", true⟩
    [("kind", .str "PodChaos"),
      ("metadata", .obj [("name", .str "pod-kill"), ("namespace", .str "default")]),
      ("spec", .obj [("action", .str "pod-kill"),
        ("selector", .obj [("labelSelectors", .obj [("app", .str "x")])])])]
    false .timeout rfl rfl rfl rfl rfl

theorem WatchError_Error_congr (host other : Host)
    (h : other.formatObject = host.formatObject) (err : WatchError) :
    err.Error other = err.Error host := by
  cases err <;> simp [WatchError.Error, h]

/-- The phase, value, message and metadata of the measurement of `Run` are the
same on two hosts that agree on everything but the answers to a delete and the
readings of the clock. -/
theorem Run_fields_congr (host other : Host) (metric : Metric)
    (h1 : other.jsonUnmarshal = host.jsonUnmarshal)
    (h2 : other.yamlUnmarshal = host.yamlUnmarshal)
    (h3 : other.newClient = host.newClient)
    (h4 : other.create = host.create)
    (h5 : other.watch = host.watch)
    (h6 : other.formatObject = host.formatObject)
    (h7 : other.accessorError = host.accessorError)
    (h8 : other.durationError = host.durationError)
    (h9 : other.floatProduct = host.floatProduct) :
    (Run other metric).1.Phase = (Run host metric).1.Phase ∧
    (Run other metric).1.Value = (Run host metric).1.Value ∧
    (Run other metric).1.Message = (Run host metric).1.Message ∧
    (Run other metric).1.Metadata = (Run host metric).1.Metadata := by
  have eparse : parseConfig other metric = parseConfig host metric := by
    simp only [parseConfig, h1]
  have evalid : ∀ config, validateConfig other config = validateConfig host config := by
    intro config
    simp only [validateConfig, h8, h9]
  have etimeout : ∀ config, parseTimeout other config = parseTimeout host config := by
    intro config
    simp only [parseTimeout, h9]
  have einject : ∀ obj e, InjectError.Error other obj e = InjectError.Error host obj e := by
    intro obj e
    cases e <;> simp [InjectError.Error, h7]
  have ecreate : ∀ yaml target,
      CreateExperiment other yaml target = CreateExperiment host yaml target := by
    intro yaml target
    simp only [CreateExperiment, h2, h4, einject]
  cases hparse : parseConfig host metric with
  | error err =>
    rw [Run_of_parse_error hparse, Run_of_parse_error (eparse.trans hparse)]
    exact ⟨rfl, rfl, rfl, rfl⟩
  | ok config =>
    cases hvalid : validateConfig host config with
    | some err =>
      rw [Run_of_invalid hparse hvalid,
        Run_of_invalid (eparse.trans hparse) ((evalid config).trans hvalid)]
      exact ⟨rfl, rfl, rfl, rfl⟩
    | none =>
      cases hclient : host.newClient with
      | some err =>
        rw [Run_of_client_error hparse hvalid hclient,
          Run_of_client_error (eparse.trans hparse) ((evalid config).trans hvalid)
            (h3.trans hclient)]
        exact ⟨rfl, rfl, rfl, rfl⟩
      | none =>
        cases hcreate : CreateExperiment host config.ChaosExperimentCRD
            [(config.TargetReplicaSetLabel, config.TargetReplicaSetValue)] with
        | error err =>
          rw [Run_of_create_error hparse hvalid hclient hcreate,
            Run_of_create_error (eparse.trans hparse) ((evalid config).trans hvalid)
              (h3.trans hclient) ((ecreate _ _).trans hcreate)]
          exact ⟨rfl, rfl, rfl, rfl⟩
        | ok experiment =>
          cases hwatch : WatchExperiment (host.watch (parseTimeout host config))
              (GetNamespace experiment) (GetName experiment) (GetKind experiment) with
          | mk success werr =>
            have hwatch' : WatchExperiment (other.watch (parseTimeout other config))
                (GetNamespace experiment) (GetName experiment) (GetKind experiment) =
                (success, werr) := by
              rw [h5, etimeout]
              exact hwatch
            rw [Run_of_watch hparse hvalid hclient hcreate hwatch,
              Run_of_watch (eparse.trans hparse) ((evalid config).trans hvalid)
                (h3.trans hclient) ((ecreate _ _).trans hcreate) hwatch']
            cases werr with
            | some err => exact ⟨rfl, rfl, WatchError_Error_congr host other h6 err, rfl⟩
            | none => exact ⟨rfl, rfl, rfl, rfl⟩

/-- C14: once the watch has returned, with an outcome or with an error, `Run`
calls `DeleteExperiment` on the created experiment exactly when `CleanupOnFinish`
is set, and only after the watch.  The phase, value, message and metadata of the
measurement do not depend on the answers of the cluster to the delete (nor on the
clock): a host that differs in them gives the same four fields, and on a watch
error the message is that of the watch error. -/
theorem Run_cleanup_best_effort (host : Host) (metric : Metric)
    (delete : GroupVersionResource → String → String → Option ApiError)
    (startTime finishTime : Nat) :
    ((Run { host with
          delete := delete, startTime := startTime, finishTime := finishTime }
        metric).1.Phase = (Run host metric).1.Phase ∧
      (Run { host with
          delete := delete, startTime := startTime, finishTime := finishTime }
        metric).1.Value = (Run host metric).1.Value ∧
      (Run { host with
          delete := delete, startTime := startTime, finishTime := finishTime }
        metric).1.Message = (Run host metric).1.Message ∧
      (Run { host with
          delete := delete, startTime := startTime, finishTime := finishTime }
        metric).1.Metadata = (Run host metric).1.Metadata) ∧
    (∀ config experiment success werr, parseConfig host metric = .ok config →
      validateConfig host config = none → host.newClient = none →
      CreateExperiment host config.ChaosExperimentCRD
        [(config.TargetReplicaSetLabel, config.TargetReplicaSetValue)] = .ok experiment →
      WatchExperiment (host.watch (parseTimeout host config)) (GetNamespace experiment)
        (GetName experiment) (GetKind experiment) = (success, werr) →
      (Run host metric).2 =
        [.NewClient,
          .CreateExperiment config.ChaosExperimentCRD
            [(config.TargetReplicaSetLabel, config.TargetReplicaSetValue)],
          .WatchExperiment (GetNamespace experiment) (GetName experiment)
            (GetKind experiment) (parseTimeout host config)] ++
          (if config.CleanupOnFinish then
            [.DeleteExperiment (GetNamespace experiment) (GetName experiment)
              (GetKind experiment)
              (DeleteExperiment host.delete (GetNamespace experiment)
                (GetName experiment) (GetKind experiment))]
          else []) ∧
      ((∃ ns name kind err,
          ClientCall.DeleteExperiment ns name kind err ∈ (Run host metric).2) ↔
        config.CleanupOnFinish = true) ∧
      (∀ err, werr = some err →
        (Run host metric).1.Phase = .Error ∧
          (Run host metric).1.Message = err.Error host)) := by
  constructor
  · exact Run_fields_congr host _ metric rfl rfl rfl rfl rfl rfl rfl rfl rfl
  · intro config experiment success werr hparse hvalid hclient hcreate hwatch
    rw [Run_of_watch hparse hvalid hclient hcreate hwatch]
    refine ⟨rfl, ?_, ?_⟩
    · cases hc : config.CleanupOnFinish <;> simp
    · rintro err rfl
      exact ⟨rfl, rfl⟩

/-- C14 on a run whose watch times out and whose cleanup delete is refused by
the cluster: the delete is attempted after the watch, and the measurement
carries the timeout message of the watch. -/
theorem Run_cleanup_best_effort_witness :
    (Run
        (exampleHost
          ⟨"", "kind: PodChaos", "app", "x", "5m", true⟩
          [("kind", .str "PodChaos"), ("metadata", .obj [("name", .str "pod-kill")]),
            ("spec", .obj [("action", .str "pod-kill")])]
          ⟨[], .deadline⟩
          (some ⟨"forbidden", false⟩))
        ⟨[(PluginName, "")]⟩).2 =
      [.NewClient, .CreateExperiment "kind: PodChaos" [("app", "x")],
        .WatchExperiment "default" "pod-kill" "PodChaos" 300000000000,
        .DeleteExperiment "default" "pod-kill" "PodChaos"
          (some "failed to delete experiment: forbidden")] ∧
    (Run
        (exampleHost
          ⟨"", "kind: PodChaos", "app", "x", "5m", true⟩
          [("kind", .str "PodChaos"), ("metadata", .obj [("name", .str "pod-kill")]),
            ("spec", .obj [("action", .str "pod-kill")])]
          ⟨[], .deadline⟩
          (some ⟨"forbidden", false⟩))
        ⟨[(PluginName, "")]⟩).1.Message = "timeout waiting for experiment to complete" :=
  ⟨(((Run_cleanup_best_effort
      (exampleHost
        ⟨"", "kind: PodChaos", "app", "x", "5m", true⟩
        [("kind", .str "PodChaos"), ("metadata", .obj [("name", .str "pod-kill")]),
          ("spec", .obj [("action", .str "pod-kill")])]
        ⟨[], .deadline⟩
        (some ⟨"forbidden", false⟩))
      ⟨[(PluginName, "")]⟩ (fun _ _ _ => none) 0 1).2
      ⟨"", "kind: PodChaos", "app", "x", "5m", true⟩
      [("kind", .str "PodChaos"),
        ("metadata", .obj [("name", .str "pod-kill"), ("namespace", .str "default")]),
        ("spec", .obj [("action", .str "pod-kill"),
          ("selector", .obj [("labelSelectors", .obj [("app", .str "x")])])])]
      false (some .timeout) rfl rfl rfl rfl rfl).1).trans rfl,
    ((((Run_cleanup_best_effort
      (exampleHost
        ⟨"", "kind: PodChaos", "app", "x", "5m", true⟩
        [("kind", .str "PodChaos"), ("metadata", .obj [("name", .str "pod-kill")]),
          ("spec", .obj [("action", .str "pod-kill")])]
        ⟨[], .deadline⟩
        (some ⟨"forbidden", false⟩))
      ⟨[(PluginName, "")]⟩ (fun _ _ _ => none) 0 1).2
      ⟨"", "kind: PodChaos", "app", "x", "5m", true⟩
      [("kind", .str "PodChaos"),
        ("metadata", .obj [("name", .str "pod-kill"), ("namespace", .str "default")]),
        ("spec", .obj [("action", .str "pod-kill"),
          ("selector", .obj [("labelSelectors", .obj [("app", .str "x")])])])]
      false (some .timeout) rfl rfl rfl rfl rfl).2.2 .timeout rfl).2).trans rfl⟩

/-! ## Claims on `Terminate` -/

/-- C16: `Terminate` returns the measurement it was given, on every path.  It
calls `DeleteExperiment` only when the configuration parses and the metadata of
the measurement holds an `experimentName` entry, and then on the namespace, name
and kind the metadata records; without that entry, or when the configuration
does not parse, it makes no call at all. -/
theorem Terminate_returns_measurement (host : Host) (metric : Metric)
    (measurement : Measurement) :
    (Terminate host metric measurement).1 = measurement ∧
    ((∃ ns name kind err,
        ClientCall.DeleteExperiment ns name kind err ∈
          (Terminate host metric measurement).2) →
      (∃ config, parseConfig host metric = .ok config) ∧
        ∃ name, strGet measurement.Metadata "experimentName" = some name) ∧
    (strGet measurement.Metadata "experimentName" = none →
      (Terminate host metric measurement).2 = []) ∧
    ((∃ err, parseConfig host metric = .error err) →
      (Terminate host metric measurement).2 = []) ∧
    (∀ config name, parseConfig host metric = .ok config →
      strGet measurement.Metadata "experimentName" = some name →
      host.newClient = none →
      (Terminate host metric measurement).2 =
        [.NewClient,
          .DeleteExperiment ((strGet measurement.Metadata "experimentNamespace").getD "")
            name ((strGet measurement.Metadata "experimentKind").getD "")
            (DeleteExperiment host.delete
              ((strGet measurement.Metadata "experimentNamespace").getD "")
              name ((strGet measurement.Metadata "experimentKind").getD ""))]) := by
  unfold Terminate
  cases hparse : parseConfig host metric with
  | error err => simp
  | ok config =>
    cases hname : strGet measurement.Metadata "experimentName" with
    | none => simp
    | some name =>
      cases hclient : host.newClient with
      | some err => simp
      | none => simp

/-- C16 on the measurement of the integration example: the measurement comes
back unchanged, after a delete of the recorded experiment that the cluster
refuses. -/
theorem Terminate_returns_measurement_witness :
    Terminate
        (exampleHost ⟨"", "kind: PodChaos", "app", "x", "5m", true⟩ [] ⟨[], .closed⟩
          (some ⟨"forbidden", false⟩))
        ⟨[(PluginName, "")]⟩
        ⟨.Successful, "", some 0, some 1, "",
          [("experimentName", "pod-kill-experiment-abc123"),
            ("experimentNamespace", "default"), ("experimentKind", "PodChaos")],
          none⟩ =
      (⟨.Successful, "", some 0, some 1, "",
          [("experimentName", "pod-kill-experiment-abc123"),
            ("experimentNamespace", "default"), ("experimentKind", "PodChaos")],
          none⟩,
        [.NewClient,
          .DeleteExperiment "default" "pod-kill-experiment-abc123" "PodChaos"
            (some "failed to delete experiment: forbidden")]) :=
  Prod.ext
    (Terminate_returns_measurement _ _ _).1
    (((Terminate_returns_measurement
      (exampleHost ⟨"", "kind: PodChaos", "app", "x", "5m", true⟩ [] ⟨[], .closed⟩
        (some ⟨"forbidden", false⟩))
      ⟨[(PluginName, "")]⟩
      ⟨.Successful, "", some 0, some 1, "",
        [("experimentName", "pod-kill-experiment-abc123"),
          ("experimentNamespace", "default"), ("experimentKind", "PodChaos")],
        none⟩).2.2.2.2
      ⟨"", "kind: PodChaos", "app", "x", "5m", true⟩ "pod-kill-experiment-abc123"
      rfl rfl rfl).trans rfl)

/-! ## The loop of `time.ParseDuration` -/

theorem leadingInt_length (x : Nat) (s : List Char) (v : Nat) (r : List Char)
    (h : leadingInt x s = some (v, r)) : r.length ≤ s.length := by
  induction s generalizing x with
  | nil =>
    simp [leadingInt] at h
    simp [h.2.symm]
  | cons c s ih =>
    unfold leadingInt at h
    split at h
    · simp at h
      simp [← h.2]
    · split at h
      · cases h
      · split at h
        · cases h
        · have := ih _ h
          simp only [List.length_cons]
          omega

theorem leadingFraction_length (x digits : Nat) (overflow : Bool) (s : List Char) :
    (leadingFraction x digits overflow s).2.2.length ≤ s.length := by
  induction s generalizing x digits overflow with
  | nil => simp [leadingFraction]
  | cons c s ih =>
    unfold leadingFraction
    split
    · simp
    · split
      · have := ih x digits true
        simp only [List.length_cons]
        omega
      · split
        · have := ih x digits true
          simp only [List.length_cons]
          omega
        · split
          · have := ih x digits true
            simp only [List.length_cons]
            omega
          · have := ih (x * 10 + (c.toNat - '0'.toNat)) (digits + 1) false
            simp only [List.length_cons]
            omega

theorem leadingPoint_length (s : List Char) :
    (leadingPoint s).2.2.2.length ≤ s.length := by
  unfold leadingPoint
  split
  · rename_i t
    have := leadingFraction_length 0 0 false t
    simp only [List.length_cons]
    omega
  · exact Nat.le_refl _

theorem leadingUnit_length (s : List Char) :
    (leadingUnit s).1.length + (leadingUnit s).2.length = s.length := by
  induction s with
  | nil => simp [leadingUnit]
  | cons c s ih =>
    unfold leadingUnit
    split
    · simp
    · simp only [List.length_cons]
      omega

theorem parseTerm_length (floatProduct : Nat → Nat → Nat → Nat) (s : List Char) (v : Nat)
    (rest : List Char) (h : parseTerm floatProduct s = some (v, rest)) :
    rest.length < s.length := by
  unfold parseTerm at h
  split at h
  · cases h
  · rename_i c t
    split at h
    · cases h
    · split at h
      · cases h
      · rename_i v₀ s₁ hint
        have h1 := leadingInt_length 0 (c :: t) v₀ s₁ hint
        have h2 := leadingPoint_length s₁
        have h3 := leadingUnit_length (leadingPoint s₁).2.2.2
        split at h
        · cases h
        · split at h
          · cases h
          · rename_i hunit
            have h4 : 0 < (leadingUnit (leadingPoint s₁).2.2.2).1.length :=
              List.length_pos.2 hunit
            split at h
            · cases h
            · split at h
              · cases h
              · split at h
                · split at h
                  · cases h
                  · simp only [Option.some.injEq, Prod.mk.injEq] at h
                    rw [← h.2]
                    omega
                · simp only [Option.some.injEq, Prod.mk.injEq] at h
                  rw [← h.2]
                  omega

/-- A fuel of the length of the text is enough for the loop of
`time.ParseDuration`: more fuel gives the same result. -/
theorem parseTerms_fuel (floatProduct : Nat → Nat → Nat → Nat) (fuel : Nat) :
    ∀ (fuel' d : Nat) (s : List Char), s.length ≤ fuel → s.length ≤ fuel' →
      parseTerms floatProduct fuel d s = parseTerms floatProduct fuel' d s := by
  induction fuel with
  | zero =>
    intro fuel' d s h1 _
    have hs : s = [] := List.length_eq_zero.1 (Nat.le_zero.1 h1)
    subst hs
    cases fuel' <;> rfl
  | succ n ih =>
    intro fuel' d s h1 h2
    cases s with
    | nil => cases fuel' <;> rfl
    | cons c t =>
      cases fuel' with
      | zero => simp at h2
      | succ m =>
        simp only [parseTerms]
        cases hterm : parseTerm floatProduct (c :: t) with
        | none => rfl
        | some p =>
          obtain ⟨v, rest⟩ := p
          have hlen := parseTerm_length floatProduct (c :: t) v rest hterm
          simp only [List.length_cons] at h1 h2 hlen
          simp only
          split
          · rfl
          · exact ih m _ rest (by omega) (by omega)

/-! ## Claims on `GetMetadata` -/

theorem strGet_strSet_same (m : List (String × String)) (k v : String) :
    strGet (strSet m k v) k = some v := by
  induction m with
  | nil => simp [strSet, strGet]
  | cons kv rest ih =>
    obtain ⟨k₀, w⟩ := kv
    by_cases h : k₀ = k
    · simp [strSet, strGet, h]
    · simp [strSet, strGet, h, ih]

theorem strGet_strSet_other (m : List (String × String)) (k k' v : String) (hne : k' ≠ k) :
    strGet (strSet m k v) k' = strGet m k' := by
  induction m with
  | nil => simp [strSet, strGet, Ne.symm hne]
  | cons kv rest ih =>
    obtain ⟨k₀, w⟩ := kv
    by_cases h : k₀ = k
    · subst h
      simp [strSet, strGet, Ne.symm hne]
    · by_cases h' : k₀ = k'
      · subst h'
        simp [strSet, strGet, h]
      · simp [strSet, strGet, h, h', ih]

theorem strGet_extractKind (metadata : List (String × String)) (lines : List String)
    (k : String) (hne : k ≠ "experimentKind") :
    strGet (extractKind metadata lines) k = strGet metadata k := by
  induction lines with
  | nil => rfl
  | cons line lines ih =>
    unfold extractKind
    split
    · split
      · exact strGet_strSet_other metadata "experimentKind" k _ hne
      · exact ih
    · exact ih

/-- The entries of `GetMetadata` that are copied from the configuration. -/
theorem GetMetadata_copied (host : Host) (metric : Metric) (config : Config)
    (hparse : parseConfig host metric = .ok config) :
    strGet (GetMetadata host metric) "pluginName" = some PluginName ∧
    strGet (GetMetadata host metric) "targetReplicaSetLabel" =
      some config.TargetReplicaSetLabel ∧
    strGet (GetMetadata host metric) "targetReplicaSetValue" =
      some config.TargetReplicaSetValue := by
  simp only [GetMetadata, hparse]
  split
  · refine ⟨?_, ?_, ?_⟩ <;>
      simp [strGet_extractKind, strGet_strSet_other, strGet_strSet_same]
  · refine ⟨?_, ?_, ?_⟩ <;> simp [strGet_strSet_other, strGet_strSet_same]

/-- C19 fails on a template in which a line that holds `kind:` precedes the
top-level `kind` entry.  `GetMetadata` copies `pluginName`,
`targetReplicaSetLabel` and `targetReplicaSetValue` from every configuration that
parses; but on the template below, which declares the kind "PodChaos" after an
annotation `experiment-kind: canary`, it reports the experiment kind "canary",
whereas `Run` on the same configuration reports "PodChaos". -/
theorem GetMetadata_kind_from_first_matching_line :
    (∀ host metric config, parseConfig host metric = .ok config →
      strGet (GetMetadata host metric) "pluginName" = some PluginName ∧
      strGet (GetMetadata host metric) "targetReplicaSetLabel" =
        some config.TargetReplicaSetLabel ∧
      strGet (GetMetadata host metric) "targetReplicaSetValue" =
        some config.TargetReplicaSetValue) ∧
    GetKind
        [("apiVersion", .str "chaos-mesh.org/v1alpha1"),
          ("metadata", .obj [("name", .str "pod-kill"),
            ("annotations", .obj [("experiment-kind", .str "canary")])]),
          ("kind", .str "PodChaos"),
          ("spec", .obj [("action", .str "pod-kill")])] = "PodChaos" ∧
    strGet
        (GetMetadata
          (exampleHost
            ⟨"", "apiVersion: chaos-mesh.org/v1alpha1\nmetadata:\n  name: pod-kill\n  annotations:\n    experiment-kind: canary\nkind: PodChaos\nspec:\n  action: pod-kill",
              "rollouts-pod-template-hash", "abc123", "5m", true⟩
            [("apiVersion", .str "chaos-mesh.org/v1alpha1"),
              ("metadata", .obj [("name", .str "pod-kill"),
                ("annotations", .obj [("experiment-kind", .str "canary")])]),
              ("kind", .str "PodChaos"),
              ("spec", .obj [("action", .str "pod-kill")])]
            ⟨[⟨.Modified, .unstructured
              [("status", .obj [("experiment", .obj [("phase", .str "Finished")])])]⟩],
              .closed⟩
            none)
          ⟨[(PluginName, "")]⟩)
        "experimentKind" = some "canary" ∧
    strGet
        (Run
          (exampleHost
            ⟨"", "apiVersion: chaos-mesh.org/v1alpha1\nmetadata:\n  name: pod-kill\n  annotations:\n    experiment-kind: canary\nkind: PodChaos\nspec:\n  action: pod-kill",
              "rollouts-pod-template-hash", "abc123", "5m", true⟩
            [("apiVersion", .str "chaos-mesh.org/v1alpha1"),
              ("metadata", .obj [("name", .str "pod-kill"),
                ("annotations", .obj [("experiment-kind", .str "canary")])]),
              ("kind", .str "PodChaos"),
              ("spec", .obj [("action", .str "pod-kill")])]
            ⟨[⟨.Modified, .unstructured
              [("status", .obj [("experiment", .obj [("phase", .str "Finished")])])]⟩],
              .closed⟩
            none)
          ⟨[(PluginName, "")]⟩).1.Metadata
        "experimentKind" = some "PodChaos" :=
  ⟨GetMetadata_copied, rfl, rfl, rfl⟩

end ChaosMesh
